import Mathlib

/-!
# GPMF_extract.c

A shallow embedding of `src/GPMF_extract.c` (the command-line extractor built on
the GPMF parser) and the properties of its argument handling, annotation lookup,
print loop and payload loop.

The parser itself (`GPMF_parser.h`, `GPMF_mp4reader.h`) is not part of the file.
Its constants and macros are collected in `Sdk`; what its functions return during
one run is collected in `Annotation`, `Strm`, `Payload` and `Source`.

An access that C leaves undefined (a zero modulus, a read outside a table) ends
the run: the state keeps the `Fault` and no later step changes it.
-/

namespace GPMFExtract

/-! ## Basic types -/

/-- Bytes of a C string, without the terminating NUL. -/
abbrev CStr := List Nat

/-- The memory that a `char*` points to, by offset from the pointer: for an
argument `argv[i]` the characters of the argument, its terminating NUL and the
bytes that follow it in memory. -/
abbrev Chars := Nat → Nat

/-- Constants, macros and pure functions that GPMF_extract.c takes from the
parser headers. -/
structure Sdk where
  /-- Success value of `GPMF_ERR`. -/
  GPMF_OK : Nat
  /-- Error value reported as "Unknown GPMF Type within". -/
  GPMF_ERROR_UNKNOWN_TYPE : Nat
  /-- Type tag of an ASCII string record. -/
  GPMF_TYPE_STRING_ASCII : Nat
  /-- Type tag of a FourCC element. -/
  GPMF_TYPE_FOURCC : Nat
  /-- Byte width of one element of the given type tag. -/
  GPMF_SizeofType : Nat → Nat
  /-- The macro `STR2FOURCC(s)`, as a function of the four bytes `s[0]`, `s[1]`,
  `s[2]`, `s[3]` that it reads at the pointer `s`. -/
  STR2FOURCC : Nat → Nat → Nat → Nat → Nat
  /-- The macro that tests whether a 32-bit value is a usable FourCC. -/
  GPMF_VALID_FOURCC : Nat → Bool

/-- The value `STR2FOURCC("GPS5")` of line 29. -/
def SHOW_THIS_FOUR_CC (K : Sdk) : Nat := K.STR2FOURCC 71 80 83 53

/-- `EXIT_FAILURE` of `stdlib.h`. -/
def EXIT_FAILURE : Nat := 1

/-- Loop `for (i = 0; i < n; i++) s = body i s`. -/
def forLoop {σ : Type} (body : Nat → σ → σ) : Nat → σ → σ
  | 0, s => s
  | n + 1, s => body n (forLoop body n s)

/-- Loop `for (i = lo; i < lo + n; i++) s = body i s`. -/
def forFrom {σ : Type} (lo : Nat) (body : Nat → σ → σ) (n : Nat) (s : σ) : σ :=
  forLoop (fun k => body (lo + k)) n s

/-- Loop `for (; cond i; i++) s = body i s` started at `i`, for a 32-bit counter:
`fuel` bounds the number of iterations. -/
def forCond {σ : Type} (cond : Nat → Bool) (body : Nat → σ → σ) : Nat → Nat → σ → σ
  | 0, _, s => s
  | fuel + 1, i, s => if cond i then forCond cond body fuel (i + 1) (body i s) else s

/-! ## load_parameters (lines 41-60) -/

/-- The out-parameters of `load_parameters` and the number of `printHelp` calls.
`vide_fn` is a pointer, given by the memory it points to. -/
structure ParamState where
  vide_fn : Chars
  four_cc : Nat
  helps : Nat

/-- The entry `argv[i]`. -/
def argAt (argv : List Chars) (i : Nat) : Chars := argv.getD i (fun _ => 0)

/-- Body of the loop at lines 50-57 for the argument `arg = argv[i]`. Line 53
hands `&argv[i][2]` to `STR2FOURCC`, which reads the four bytes at offsets 2 to 5
of the argument, whether or not the argument is that long. -/
def switchStep (K : Sdk) (arg : Chars) (p : ParamState) : ParamState :=
  if arg 0 = 45 then            -- argv[i][0] == '-'
    if arg 1 = 102 then         -- case 'f'
      { p with four_cc := K.STR2FOURCC (arg 2) (arg 3) (arg 4) (arg 5) }
    else if arg 1 = 104 then    -- case 'h'
      { p with helps := p.helps + 1 }
    else p
  else p

/-- The function `load_parameters`: the return value and the state it leaves.
`argc` is the number of entries of `argv`. -/
def load_parameters (K : Sdk) (argc : Nat) (argv : List Chars) (p0 : ParamState) :
    Nat × ParamState :=
  let p1 := { p0 with four_cc := SHOW_THIS_FOUR_CC K }
  if argc < 2 then (1, p1)
  else
    let p2 := { p1 with vide_fn := argAt argv 1 }
    (0, forFrom 2 (fun i p => switchStep K (argAt argv i) p) (argc - 2) p2)

/-- The locals `video_fn` and `show_this_four_cc` of `main` before
`load_parameters` runs: they start out unset, and `load_parameters` writes both
before they are read. -/
def unsetParams : ParamState := { vide_fn := fun _ => 0, four_cc := 0, helps := 0 }

/-- An argument that starts with "-f". -/
def isDashF (arg : Chars) : Prop := arg 0 = 45 ∧ arg 1 = 102

instance (arg : Chars) : Decidable (isDashF arg) := by
  unfold isDashF; infer_instance

/-! ## Buffer size (line 131) -/

/-- The value of `uint32_t buffersize = samples * elements * sizeof(double)`: the
product of the two `uint32_t` wraps at 32 bits, the multiplication by the
`size_t` 8 is truncated to 32 bits by the assignment. -/
def buffersize (samples elements : Nat) : Nat :=
  ((samples * elements) % 2 ^ 32 * 8) % 2 ^ 32

/-! ## Annotation lookup (lines 135-179) -/

/-- Size `MAX_UNITS` of the unit and type tables (line 135). -/
def MAX_UNITS : Nat := 64

/-- Size `MAX_UNITLEN` of one unit label (line 136). -/
def MAX_UNITLEN : Nat := 8

/-- What the parser reports about a record found by `GPMF_FindPrev`: the bytes at
`GPMF_RawData` (by offset), `GPMF_StructSize` and `GPMF_Repeat`. -/
structure Annotation where
  RawData : Nat → Nat
  StructSize : Nat
  Repeat : Nat

/-- The table `char units[MAX_UNITS][MAX_UNITLEN]`, by row and column. -/
abbrev UnitTable := Nat → Nat → Nat

/-- The table `char complextype[MAX_UNITS]`, by index. -/
abbrev TypeTable := Nat → Nat

/-- The call `memcpy(units[i], data, ssize)`, where `data` is an offset into `src`. -/
def memcpyRow (units : UnitTable) (i : Nat) (src : Nat → Nat) (data ssize : Nat) :
    UnitTable :=
  fun r c => if r = i ∧ c < ssize then src (data + c) else units r c

/-- The assignment `units[i][c] = v`. -/
def setCell (units : UnitTable) (i c v : Nat) : UnitTable :=
  fun r k => if r = i ∧ k = c then v else units r k

/-- The assignment `complextype[i] = v`. -/
def setType (t : TypeTable) (i v : Nat) : TypeTable :=
  fun k => if k = i then v else t k

/-- State of the copy loop at lines 157-162: the table and the `data` pointer, as
an offset from `GPMF_RawData`. -/
structure UnitCopy where
  units : UnitTable
  data : Nat

/-- Body of the loop at lines 157-162. -/
def unitsCopyStep (a : Annotation) (ssize i : Nat) (s : UnitCopy) : UnitCopy :=
  { units := setCell (memcpyRow s.units i a.RawData s.data ssize) i ssize 0
    data := s.data + ssize }

/-- The clamp `if (ssize > MAX_UNITLEN - 1) ssize = MAX_UNITLEN - 1` (lines 154, 172). -/
def clampSize (ssize : Nat) : Nat :=
  if ssize > MAX_UNITLEN - 1 then MAX_UNITLEN - 1 else ssize

/-- Lines 152-162 for the Units record `a`, started on the table `units0`. -/
def unitsCopy (units0 : UnitTable) (a : Annotation) : UnitTable :=
  let ssize := clampSize a.StructSize
  let unit_samples := a.Repeat
  (forCond (fun i => decide (i < unit_samples) && decide (i < MAX_UNITS))
    (unitsCopyStep a ssize) (2 ^ 32) 0 { units := units0, data := 0 }).units

/-- The condition at lines 149-150: the record found for `GPMF_KEY_SI_UNITS`, or
else the one found for `GPMF_KEY_UNITS`. -/
def foundUnits (si alt : Option Annotation) : Option Annotation :=
  match si with
  | some a => some a
  | none => alt

/-- Lines 137-138 and 147-163: the table `units` and `unit_samples`. -/
def unitsLookup (si alt : Option Annotation) : UnitTable × Nat :=
  match foundUnits si alt with
  | none => (fun _ _ => 0, 1)
  | some a => (unitsCopy (fun _ _ => 0) a, a.Repeat)

/-- Lines 170-178 for the Type-descriptor record `a`, started on the table `t0`. -/
def typeCopy (t0 : TypeTable) (a : Annotation) : TypeTable :=
  let type_samples := a.Repeat
  forCond (fun i => decide (i < type_samples) && decide (i < MAX_UNITS))
    (fun i t => setType t i (a.RawData i)) (2 ^ 32) 0 t0

/-- Lines 140-141 and 165-179: the table `complextype` and `type_samples`. -/
def typeLookup (found : Option Annotation) : TypeTable × Nat :=
  match found with
  | none => (fun _ => 0, 0)
  | some a => (typeCopy (fun _ => 0) a, a.Repeat)

/-- The C string stored in one row of `units`, as `%s` prints it. -/
def rowString (row : Nat → Nat) : CStr :=
  ((List.range MAX_UNITLEN).map row).takeWhile (fun b => b ≠ 0)

/-! ## Print loop (lines 185-216) -/

/-- What the program does, in order: the `printf` calls of the print loop (with
the cursor each one reads from), the calls of `GPMF_Init` and the messages of
`main`. -/
inductive Event where
  /-- Line 189: the key of the record. -/
  | key (k : Nat)
  /-- Line 195: the character `rawdata[pos]`. -/
  | chr (pos : Nat)
  /-- Lines 200 and 203: the double `tmpbuffer[ptr]` followed by a unit label. -/
  | num (ptr : Nat) (label : CStr)
  /-- Line 209: the four characters `rawdata[pos .. pos+3]`. -/
  | fourcc (pos : Nat)
  /-- Line 215. -/
  | newline
  /-- Line 105: `GPMF_Init` is called on the payload `index`. -/
  | init (index : Nat)
  /-- Line 222: `GPMF_ResetState` ends the work on the payload `index`. -/
  | reset (index : Nat)
  /-- Lines 32-39. -/
  | help
  /-- Line 73. -/
  | invalidSource
  /-- Line 235: "Unknown GPMF Type within". -/
  | unknownType
  /-- Line 237: "GPMF data has corruption". -/
  | corruption
  deriving DecidableEq, Repr

/-- An access of the print loop that C leaves undefined. -/
inductive Fault where
  /-- The operation `j % unit_samples` with `unit_samples = 0`. -/
  | modZero (j : Nat)
  /-- The read `units[k]` with `k` outside the table. -/
  | unitsIndex (k : Nat)
  /-- The read `complextype[j]` with `j` outside the table. -/
  | typeIndex (j : Nat)
  deriving DecidableEq, Repr

/-- The record at the stream position: `GPMF_Key`, `GPMF_Type`, `GPMF_Repeat`
and `GPMF_ElementsInStruct` (lines 124-127), all `uint32_t` in `main`. What the
wire format allows for the two counts is `Rec.onWire`. -/
structure Rec where
  key : Nat
  type : Nat
  samples : Nat
  elements : Nat

/-- The locals that the annotation lookup leaves for the print loop. -/
structure Tables where
  units : UnitTable
  unit_samples : Nat
  complextype : TypeTable
  type_samples : Nat

/-- State of the print loop: the numeric cursor `ptr` (in doubles from
`tmpbuffer`), the raw-byte cursor `pos`, the output so far and the undefined
access that ended the run, if there was one. Both cursors are kept as unbounded
numbers. -/
structure Cursor where
  ptr : Nat
  pos : Nat
  out : List Event
  fault : Option Fault

/-- The four branches of the `if` chain at lines 193-211. -/
inductive Branch where
  | string
  | plain
  | typed
  | fourcc
  deriving DecidableEq, Repr

/-- The branch that the `if` chain at lines 193-211 selects for element `j`, if any. -/
def branchOf (K : Sdk) (r : Rec) (t : Tables) (j : Nat) : Option Branch :=
  if r.type = K.GPMF_TYPE_STRING_ASCII then some Branch.string
  else if t.type_samples = 0 then some Branch.plain
  else if t.complextype j ≠ 70 then some Branch.typed          -- != 'F'
  else if t.type_samples ≠ 0 ∧ t.complextype j = K.GPMF_TYPE_FOURCC then some Branch.fourcc
  else none

/-- The undefined access in evaluating `units[j % unit_samples]`, if there is one. -/
def unitFault (t : Tables) (j : Nat) : Option Fault :=
  if t.unit_samples = 0 then some (Fault.modZero j)
  else if MAX_UNITS ≤ j % t.unit_samples then some (Fault.unitsIndex (j % t.unit_samples))
  else none

/-- The undefined access in evaluating `complextype[j]`, if there is one. -/
def typeFault (j : Nat) : Option Fault :=
  if MAX_UNITS ≤ j then some (Fault.typeIndex j) else none

/-- The first undefined access that lines 193-211 make for element `j`, if any:
a string record reads neither table; without Type-descriptor line 200 reads
`units[j % unit_samples]`; otherwise line 201 reads `complextype[j]` and, if that
is not 'F', line 203 reads `units[j % unit_samples]`. -/
def elemFault (K : Sdk) (r : Rec) (t : Tables) (j : Nat) : Option Fault :=
  if r.type = K.GPMF_TYPE_STRING_ASCII then none
  else if t.type_samples = 0 then unitFault t j
  else
    match typeFault j with
    | some f => some f
    | none => if t.complextype j ≠ 70 then unitFault t j else none

/-- The label `units[j % unit_samples]` passed to `printf`. A branch reads it
only after `elemFault` has found the modulus non-zero and the row inside the
table. -/
def unitLabel (t : Tables) (j : Nat) : CStr :=
  rowString (t.units (j % t.unit_samples))

/-- Effect of one branch of lines 193-211 for element `j`, all of whose accesses
are defined. -/
def runBranch (K : Sdk) (t : Tables) (j : Nat) : Option Branch → Cursor → Cursor
  | some Branch.string, s =>
    { s with out := s.out ++ [Event.chr s.pos], pos := s.pos + 1, ptr := s.ptr + 1 }
  | some Branch.plain, s =>
    { s with out := s.out ++ [Event.num s.ptr (unitLabel t j)], ptr := s.ptr + 1 }
  | some Branch.typed, s =>
    { s with out := s.out ++ [Event.num s.ptr (unitLabel t j)], ptr := s.ptr + 1,
             pos := s.pos + K.GPMF_SizeofType (t.complextype j) }
  | some Branch.fourcc, s =>
    { s with ptr := s.ptr + 1, out := s.out ++ [Event.fourcc s.pos],
             pos := s.pos + K.GPMF_SizeofType (t.complextype j) }
  | none, s => s

/-- Body of the loop over `j` (lines 192-212): nothing once the run has ended;
the run ends at an undefined access; otherwise the selected branch runs. -/
def elemStep (K : Sdk) (r : Rec) (t : Tables) (j : Nat) (s : Cursor) : Cursor :=
  if s.fault.isSome then s
  else
    match elemFault K r t j with
    | some f => { s with fault := some f }
    | none => runBranch K t j (branchOf K r t j) s

/-- An item is printed unless the run has ended. -/
def emit (e : Event) (s : Cursor) : Cursor :=
  if s.fault.isSome then s else { s with out := s.out ++ [e] }

/-- The `printf` at line 189. -/
def printKey (r : Rec) (s : Cursor) : Cursor := emit (Event.key r.key) s

/-- Body of the loop over `i` (lines 188-216). -/
def sampleStep (K : Sdk) (r : Rec) (t : Tables) (_i : Nat) (s : Cursor) : Cursor :=
  emit Event.newline (forLoop (elemStep K r t) r.elements (printKey r s))

/-- The initial state `ptr = tmpbuffer; pos = 0` (lines 185-186). -/
def start : Cursor := { ptr := 0, pos := 0, out := [], fault := none }

/-- The print loop, lines 185-216. -/
def printLoop (K : Sdk) (r : Rec) (t : Tables) : Cursor :=
  forLoop (sampleStep K r t) r.samples start

/-- The state of the print loop on reaching element `j` of sample `i`: `i` whole
samples are done, the key of sample `i` is printed and its elements below `j`
are done. -/
def reach (K : Sdk) (r : Rec) (t : Tables) (i j : Nat) : Cursor :=
  forLoop (elemStep K r t) j (printKey r (forLoop (sampleStep K r t) i start))

/-! ## The work on one record (lines 123-220) -/

/-- What the parser and `malloc` report during one pass of the loop at lines
109-221, that is for one "STRM" found by `GPMF_FindNext`. -/
structure Strm where
  /-- Result of `GPMF_FindNext(ms, show_this_four_cc, ...)` (line 113). -/
  findRes : Nat
  /-- Result of `GPMF_SeekToSamples(ms)` (line 118). -/
  seekRes : Nat
  /-- The record the stream then stands on (lines 124-127). -/
  record : Rec
  /-- Whether `malloc` of the given size returns a buffer (line 133). -/
  malloc : Nat → Bool
  /-- Result of `GPMF_FindPrev` for `GPMF_KEY_SI_UNITS` (line 149). -/
  siUnits : Option Annotation
  /-- Result of `GPMF_FindPrev` for `GPMF_KEY_UNITS` (line 150). -/
  altUnits : Option Annotation
  /-- Result of `GPMF_FindPrev` for `GPMF_KEY_TYPE` (line 168). -/
  typeDesc : Option Annotation
  /-- Result of `GPMF_ScaledData` for the given buffer size (line 182). -/
  ScaledData : Nat → Nat

/-- The locals after lines 135-179. -/
def tablesOf (s : Strm) : Tables :=
  let u := unitsLookup s.siUnits s.altUnits
  let c := typeLookup s.typeDesc
  { units := u.1, unit_samples := u.2, complextype := c.1, type_samples := c.2 }

/-- Lines 123-220: what is printed for the record of `s`, and the undefined
access that ended the run there, if any. -/
def processRecord (K : Sdk) (s : Strm) : Cursor :=
  if s.record.samples ≠ 0 then
    let size := buffersize s.record.samples s.record.elements
    if s.malloc size then
      if K.GPMF_OK = s.ScaledData size then printLoop K s.record (tablesOf s)
      else start
    else start
  else start

/-! ## main (lines 62-241) -/

/-- The variable `ret` of `main`, everything done so far and the undefined
access that ended the run, if there was one. -/
structure Run where
  ret : Nat
  out : List Event
  fault : Option Fault
  deriving DecidableEq, Repr

/-- The state of `main` after lines 123-220 ran on the record of `s`. -/
def afterRecord (K : Sdk) (s : Strm) (st : Run) : Run :=
  { st with out := st.out ++ (processRecord K s).out, fault := (processRecord K s).fault }

/-- The loop at lines 109-221 over the "STRM" records that `GPMF_FindNext`
finds in one payload, in the order found. -/
def strmLoop (K : Sdk) (four_cc : Nat) : List Strm → Run → Run
  | [], st => st
  | s :: rest, st =>
    if st.fault.isSome then st
    else if K.GPMF_VALID_FOURCC four_cc then
      if K.GPMF_OK ≠ s.findRes then strmLoop K four_cc rest st
      else strmLoop K four_cc rest (afterRecord K s st)
    else
      let st1 : Run := { st with ret := s.seekRes }
      if K.GPMF_OK ≠ st1.ret then strmLoop K four_cc rest st1
      else strmLoop K four_cc rest (afterRecord K s st1)

/-- What the MP4 reader and the parser report for one payload. -/
structure Payload where
  /-- Whether `GetPayload` returns a buffer (line 96). -/
  payload : Bool
  /-- Result of `GetPayloadTime` (line 101). -/
  timeRes : Nat
  /-- Result of `GPMF_Init` (line 105). -/
  initRes : Nat
  /-- The passes of the loop at lines 109-221. -/
  strms : List Strm

/-- An event of `main` is recorded unless the run has ended. -/
def note (e : Event) (st : Run) : Run :=
  if st.fault.isSome then st else { st with out := st.out ++ [e] }

/-- The loop at lines 92-223 from payload `index` on, over the payloads left. -/
def payloadLoop (K : Sdk) (four_cc : Nat) : Nat → List Payload → Run → Run
  | _, [], st => st
  | index, p :: rest, st =>
    if st.fault.isSome then st
    else if p.payload = false then st
    else
      let st1 : Run := { st with ret := p.timeRes }
      if st1.ret ≠ K.GPMF_OK then st1
      else
        let st2 : Run := { st1 with ret := p.initRes, out := st1.out ++ [Event.init index] }
        if st2.ret ≠ K.GPMF_OK then st2
        else
          payloadLoop K four_cc (index + 1) rest
            (note (Event.reset index) (strmLoop K four_cc p.strms st2))

/-- What the MP4 reader reports about the file named in `argv[1]`. -/
structure Source where
  /-- Result of `OpenMP4Source` (line 71). -/
  mp4handle : Nat
  /-- Whether `GetDuration` is below 0.01 (line 80). -/
  shortDuration : Bool
  /-- The `GetNumberPayloads` payloads of the file (line 84). -/
  payloads : List Payload

/-- The message printed at lines 233-238 for the final `ret`. -/
def report (K : Sdk) (ret : Nat) : List Event :=
  if ret ≠ 0 then
    if K.GPMF_ERROR_UNKNOWN_TYPE = ret then [Event.unknownType] else [Event.corruption]
  else []

/-- The function `main`: its return value and what it did. A run that an
undefined access has ended prints no report and returns nothing. -/
def main (K : Sdk) (argc : Nat) (argv : List Chars) (src : Source) : Run :=
  let lp := load_parameters K argc argv unsetParams
  let helps := List.replicate lp.2.helps Event.help
  if lp.1 ≠ 0 then { ret := EXIT_FAILURE, out := helps ++ [Event.help], fault := none }
  else if src.mp4handle = 0 then
    { ret := EXIT_FAILURE, out := helps ++ [Event.invalidSource], fault := none }
  else if src.shortDuration then { ret := EXIT_FAILURE, out := helps, fault := none }
  else
    let st := payloadLoop K lp.2.four_cc 0 src.payloads
      { ret := K.GPMF_OK, out := helps, fault := none }
    if st.fault.isSome then st
    else { st with out := st.out ++ report K st.ret }

/-! ## Quantities used in the statements -/

/-- The sum of `GPMF_SizeofType(d[k])` over the elements `k < n`. -/
def sizeSum (K : Sdk) (d : Nat → Nat) (n : Nat) : Nat :=
  ((List.range n).map (fun k => K.GPMF_SizeofType (d k))).sum

/-- The output of the print loop for a record without Type-descriptor that is
not a string: per sample the key, one number per element and a newline. -/
def plainOutput (r : Rec) (t : Tables) : List Event :=
  (List.range r.samples).flatMap (fun i =>
    [Event.key r.key]
      ++ (List.range r.elements).map (fun j => Event.num (i * r.elements + j) (unitLabel t j))
      ++ [Event.newline])

/-- Whether an event is one of the items that the print loop prints. -/
def Event.isItem : Event → Bool
  | Event.key _ => true
  | Event.chr _ => true
  | Event.num _ _ => true
  | Event.fourcc _ => true
  | Event.newline => true
  | _ => false

/-- The bytes of a buffer given as a list; past its end the bytes read as 0. -/
def bytes (l : List Nat) : Nat → Nat := fun k => l.getD k 0

/-- The characters the parser accepts in a FourCC: letters, digits and space. -/
def fourccChar (c : Nat) : Bool :=
  (decide (97 ≤ c) && decide (c ≤ 122)) || (decide (65 ≤ c) && decide (c ≤ 90))
    || (decide (48 ≤ c) && decide (c ≤ 57)) || decide (c = 32)

/-- An instance of `Sdk` with the values of the GPMF parser headers: `GPMF_OK` is
0, `GPMF_ERROR_UNKNOWN_TYPE` is 9, the type tags are 'c' for strings and 'F' for
FourCC, a FourCC holds its first character in the low byte. -/
def sdk : Sdk where
  GPMF_OK := 0
  GPMF_ERROR_UNKNOWN_TYPE := 9
  GPMF_TYPE_STRING_ASCII := 99
  GPMF_TYPE_FOURCC := 70
  GPMF_SizeofType := fun t =>
    if t ∈ [98, 66, 99, 117] then 1
    else if t ∈ [115, 83] then 2
    else if t ∈ [102, 70, 108, 76, 113] then 4
    else if t ∈ [81, 100, 106, 74] then 8
    else if t ∈ [71, 85] then 16
    else 0
  STR2FOURCC := fun a b c d => a + 256 * b + 65536 * c + 16777216 * d
  GPMF_VALID_FOURCC := fun v =>
    fourccChar (v % 256) && fourccChar (v / 256 % 256) && fourccChar (v / 65536 % 256)
      && fourccChar (v / 16777216 % 256)

/-- The value `GPMF_ERROR_FIND` that a search returns when it finds nothing. -/
def GPMF_ERROR_FIND : Nat := 4

/-- The command line `extract clip.mp4 -fACCL -x`: each argument with its NUL
and the bytes behind it. -/
def argvACCL : List Chars :=
  [bytes [101, 120, 116, 114, 97, 99, 116, 0, 99, 108, 105, 112],
   bytes [99, 108, 105, 112, 46, 109, 112, 52, 0, 45, 102, 65],
   bytes [45, 102, 65, 67, 67, 76, 0, 45, 120, 0],
   bytes [45, 120, 0, 72, 79, 77, 69, 61]]

/-- The command line `extract clip.mp4 -f`, which asks for all streams; behind
the NUL of `-f` the memory goes on with the bytes "HOME=". -/
def argvAll : List Chars :=
  [bytes [101, 120, 116, 114, 97, 99, 116, 0, 99, 108, 105, 112],
   bytes [99, 108, 105, 112, 46, 109, 112, 52, 0, 45, 102, 0],
   bytes [45, 102, 0, 72, 79, 77, 69, 61]]

/-- The command line `extract clip.mp4`. -/
def argvDefault : List Chars :=
  [bytes [101, 120, 116, 114, 97, 99, 116, 0, 99, 108, 105, 112],
   bytes [99, 108, 105, 112, 46, 109, 112, 52, 0, 72, 79, 77]]

/-- A Units record of two labels of 8 bytes each: "ABCDEFGH" and "IJKLMNOP". -/
def longUnits : Annotation :=
  { RawData := bytes [65, 66, 67, 68, 69, 70, 71, 72, 73, 74, 75, 76, 77, 78, 79, 80]
    StructSize := 8
    Repeat := 2 }

/-- A Units record of three labels of 3 bytes each: "deg", "m", "m/s". -/
def gpsUnits : Annotation :=
  { RawData := bytes [100, 101, 103, 109, 0, 0, 109, 47, 115]
    StructSize := 3
    Repeat := 3 }

/-- A Units record whose repeat count is 0. -/
def emptyUnits : Annotation :=
  { RawData := bytes [], StructSize := 1, Repeat := 0 }

/-- A Type-descriptor record "LFs": a 32-bit integer, a FourCC, a 16-bit integer. -/
def typeLFs : Annotation :=
  { RawData := bytes [76, 70, 115], StructSize := 1, Repeat := 3 }

/-- A record of two samples of three 32-bit integers. -/
def gpsRec : Rec := { key := 894652487, type := 108, samples := 2, elements := 3 }

/-- A pass of the stream loop on `gpsRec` with the units "deg", "m", "m/s" and
no Type-descriptor. -/
def gpsStrm : Strm :=
  { findRes := 0, seekRes := 0, record := gpsRec, malloc := fun _ => true,
    siUnits := none, altUnits := some gpsUnits, typeDesc := none,
    ScaledData := fun _ => 0 }

/-- A pass of the stream loop on a composite record of two samples of the
structure "LFs" (10 bytes), without units. -/
def mixedStrm : Strm :=
  { findRes := 0, seekRes := 0,
    record := { key := 1414743380, type := 63, samples := 2, elements := 3 },
    malloc := fun _ => true, siUnits := none, altUnits := none,
    typeDesc := some typeLFs, ScaledData := fun _ => 0 }

/-- A pass of the stream loop on a string record of one sample of four characters. -/
def nameStrm : Strm :=
  { findRes := 0, seekRes := 0,
    record := { key := 1296651347, type := 99, samples := 1, elements := 4 },
    malloc := fun _ => true, siUnits := none, altUnits := none,
    typeDesc := none, ScaledData := fun _ => 0 }

/-- A pass of the stream loop on `gpsRec` whose Units record has repeat count 0. -/
def zeroUnitsStrm : Strm :=
  { findRes := 0, seekRes := 0, record := gpsRec, malloc := fun _ => true,
    siUnits := some emptyUnits, altUnits := none, typeDesc := none,
    ScaledData := fun _ => 0 }

/-- A Units record of 100 one-byte labels. -/
def manyUnits : Annotation :=
  { RawData := fun _ => 109, StructSize := 1, Repeat := 100 }

/-- A pass of the stream loop on a record of one sample of 66 unsigned bytes,
preceded by the Type-descriptor "LFs", without units. -/
def wideStrm : Strm :=
  { findRes := 0, seekRes := 0,
    record := { key := 1162103122, type := 66, samples := 1, elements := 66 },
    malloc := fun _ => true, siUnits := none, altUnits := none,
    typeDesc := some typeLFs, ScaledData := fun _ => 0 }

/-- A pass of the stream loop on a record of one sample of 66 unsigned bytes,
preceded by 100 unit labels, without Type-descriptor. -/
def wideUnitsStrm : Strm :=
  { findRes := 0, seekRes := 0,
    record := { key := 1162103122, type := 66, samples := 1, elements := 66 },
    malloc := fun _ => true, siUnits := some manyUnits, altUnits := none,
    typeDesc := none, ScaledData := fun _ => 0 }

/-- A payload that is fetched, timed and initialised and holds one stream. -/
def okPayload : Payload :=
  { payload := true, timeRes := 0, initRes := 0, strms := [gpsStrm] }

/-- A payload on which `GPMF_Init` fails with the error 2. -/
def badPayload : Payload :=
  { payload := true, timeRes := 0, initRes := 2, strms := [gpsStrm] }

/-- A file of two payloads, the first of which fails to initialise. -/
def twoPayloads : Source :=
  { mp4handle := 1, shortDuration := false, payloads := [badPayload, okPayload] }

/-- A file of one payload whose only stream holds no samples: `GPMF_SeekToSamples`
returns `GPMF_ERROR_FIND` on it. -/
def seekMiss : Source :=
  { mp4handle := 1, shortDuration := false,
    payloads := [{ payload := true, timeRes := 0, initRes := 0,
                   strms := [{ gpsStrm with seekRes := GPMF_ERROR_FIND }] }] }

theorem forLoop_succ_left {σ : Type} (body : Nat → σ → σ) (n : Nat) (s : σ) :
    forLoop body (n + 1) s = forLoop (fun k => body (k + 1)) n (body 0 s) := by
  induction n with
  | zero => rfl
  | succ n ih =>
    show body (n + 1) (forLoop body (n + 1) s) = _
    rw [ih]
    rfl

theorem forCond_eq_forLoop {σ : Type} (a b : Nat) (body : Nat → σ → σ) :
    ∀ (fuel i : Nat) (s : σ), min a b - i ≤ fuel →
      forCond (fun i => decide (i < a) && decide (i < b)) body fuel i s
        = forLoop (fun k => body (i + k)) (min a b - i) s := by
  intro fuel
  induction fuel with
  | zero =>
    intro i s h
    have h0 : min a b - i = 0 := by omega
    rw [h0]
    rfl
  | succ fuel ih =>
    intro i s h
    by_cases hc : i < a ∧ i < b
    · have hm : min a b - i = (min a b - (i + 1)) + 1 := by
        have : i < min a b := lt_min hc.1 hc.2
        omega
      have hstep : forCond (fun i => decide (i < a) && decide (i < b)) body (fuel + 1) i s
          = forCond (fun i => decide (i < a) && decide (i < b)) body fuel (i + 1) (body i s) := by
        simp [forCond, hc.1, hc.2]
      rw [hstep, ih (i + 1) (body i s) (by omega), hm, forLoop_succ_left]
      have hb : (fun k => body (i + 1 + k)) = (fun k => body (i + (k + 1))) := by
        funext k
        rw [Nat.add_right_comm, Nat.add_assoc]
      rw [hb]
      rfl
    · have h0 : min a b - i = 0 := by
        have : min a b ≤ i := by
          rcases Nat.lt_or_ge i a with h1 | h1
          · rcases Nat.lt_or_ge i b with h2 | h2
            · exact absurd ⟨h1, h2⟩ hc
            · exact le_trans (min_le_right a b) h2
          · exact le_trans (min_le_left a b) h1
        omega
      have hstep : forCond (fun i => decide (i < a) && decide (i < b)) body (fuel + 1) i s = s := by
        have : ¬ (i < a ∧ i < b) := hc
        simp only [forCond]
        rw [if_neg]
        simpa using this
      rw [hstep, h0]
      rfl

/-- The copy loops of lines 157 and 175 run the body for `i = 0, 1, ...` below
both bounds. -/
theorem forCond_zero {σ : Type} (a b : Nat) (body : Nat → σ → σ) (s : σ)
    (hb : min a b ≤ 2 ^ 32) :
    forCond (fun i => decide (i < a) && decide (i < b)) body (2 ^ 32) 0 s
      = forLoop body (min a b) s := by
  rw [forCond_eq_forLoop a b body (2 ^ 32) 0 s (by omega)]
  have hf : (fun k => body (0 + k)) = body := by
    funext k
    rw [Nat.zero_add]
  rw [hf]
  rfl

theorem min_units_le (a : Nat) : min a MAX_UNITS ≤ 2 ^ 32 :=
  le_trans (min_le_right a MAX_UNITS) (by decide)

/-! ## The type table -/

theorem typeFill (d : Nat → Nat) (t0 : TypeTable) (n k : Nat) :
    forLoop (fun i t => setType t i (d i)) n t0 k = if k < n then d k else t0 k := by
  induction n with
  | zero => simp [forLoop]
  | succ n ih =>
    show setType (forLoop (fun i t => setType t i (d i)) n t0) n (d n) k = _
    show (if k = n then d n else forLoop (fun i t => setType t i (d i)) n t0 k) = _
    by_cases hk : k = n
    · subst hk
      simp
    · rw [if_neg hk, ih]
      by_cases h1 : k < n
      · rw [if_pos h1, if_pos (by omega)]
      · rw [if_neg h1, if_neg (by omega)]

theorem typeCopy_apply (t0 : TypeTable) (a : Annotation) (k : Nat) :
    typeCopy t0 a k = if k < min a.Repeat MAX_UNITS then a.RawData k else t0 k := by
  unfold typeCopy
  rw [forCond_zero a.Repeat MAX_UNITS _ t0 (min_units_le a.Repeat)]
  exact typeFill a.RawData t0 (min a.Repeat MAX_UNITS) k

theorem typeLookup_apply (a : Annotation) (i : Nat) :
    (typeLookup (some a)).1 i = if i < min a.Repeat 64 then a.RawData i else 0 :=
  typeCopy_apply (fun _ => 0) a i

/-- C4: when a Type-descriptor record with repeat count `r` and raw bytes `d` is
found, `complextype[i] = d[i]` for every `i < min(r, 64)`, every other entry is 0
and `type_samples = r`; the copy loop leaves every cell at an index of 64 or more
as it was, whatever the table held before; when no Type-descriptor is found,
`type_samples = 0` and every entry of `complextype` is 0. -/
theorem type_lookup_table (a : Annotation) :
    (∀ i, i < min a.Repeat 64 → (typeLookup (some a)).1 i = a.RawData i) ∧
    (∀ i, ¬ i < min a.Repeat 64 → (typeLookup (some a)).1 i = 0) ∧
    (typeLookup (some a)).2 = a.Repeat ∧
    (∀ (t0 : TypeTable) (k : Nat), 64 ≤ k → typeCopy t0 a k = t0 k) ∧
    (typeLookup none).2 = 0 ∧ (∀ i, (typeLookup none).1 i = 0) := by
  refine ⟨?_, ?_, rfl, ?_, rfl, fun _ => rfl⟩
  · intro i hi
    rw [typeLookup_apply]
    exact if_pos hi
  · intro i hi
    rw [typeLookup_apply]
    exact if_neg hi
  · intro t0 k hk
    rw [typeCopy_apply, if_neg]
    have : min a.Repeat MAX_UNITS ≤ 64 := min_le_right _ _
    omega

theorem type_lookup_table_witness :
    1 < min typeLFs.Repeat 64 ∧ (typeLookup (some typeLFs)).1 1 = typeLFs.RawData 1 :=
  ⟨by decide, (type_lookup_table typeLFs).1 1 (by decide)⟩

/-! ## The buffer size -/

theorem switchStep_vide_fn (K : Sdk) (arg : Chars) (p : ParamState) :
    (switchStep K arg p).vide_fn = p.vide_fn := by
  unfold switchStep
  split_ifs <;> rfl

theorem switchStep_dashF (K : Sdk) (arg : Chars) (p : ParamState) (h : isDashF arg) :
    (switchStep K arg p).four_cc = K.STR2FOURCC (arg 2) (arg 3) (arg 4) (arg 5) := by
  unfold switchStep
  rw [if_pos h.1, if_pos h.2]

theorem switchStep_other (K : Sdk) (arg : Chars) (p : ParamState) (h : ¬ isDashF arg) :
    (switchStep K arg p).four_cc = p.four_cc := by
  unfold switchStep
  split_ifs with h0 h1 h2
  · exact absurd ⟨h0, h1⟩ h
  · rfl
  · rfl
  · rfl

/-- What the loop at lines 50-57 has done after the arguments `2 .. 2+n-1`. -/
theorem switch_loop (K : Sdk) (argv : List Chars) (p : ParamState) (n : Nat) :
    (forFrom 2 (fun i q => switchStep K (argAt argv i) q) n p).vide_fn = p.vide_fn ∧
    ((∃ i, 2 ≤ i ∧ i < 2 + n ∧ isDashF (argAt argv i) ∧
        (∀ k, i < k → k < 2 + n → ¬ isDashF (argAt argv k)) ∧
        (forFrom 2 (fun i q => switchStep K (argAt argv i) q) n p).four_cc
          = K.STR2FOURCC (argAt argv i 2) (argAt argv i 3) (argAt argv i 4) (argAt argv i 5)) ∨
     ((∀ i, 2 ≤ i → i < 2 + n → ¬ isDashF (argAt argv i)) ∧
        (forFrom 2 (fun i q => switchStep K (argAt argv i) q) n p).four_cc = p.four_cc)) := by
  induction n with
  | zero =>
    refine ⟨rfl, Or.inr ⟨?_, rfl⟩⟩
    intro i h1 h2
    omega
  | succ n ih =>
    obtain ⟨hv, hf⟩ := ih
    have hstep : forFrom 2 (fun i q => switchStep K (argAt argv i) q) (n + 1) p
        = switchStep K (argAt argv (2 + n))
            (forFrom 2 (fun i q => switchStep K (argAt argv i) q) n p) := rfl
    rw [hstep]
    refine ⟨by rw [switchStep_vide_fn, hv], ?_⟩
    by_cases hd : isDashF (argAt argv (2 + n))
    · left
      refine ⟨2 + n, by omega, by omega, hd, ?_, switchStep_dashF K _ _ hd⟩
      intro k h1 h2
      omega
    · rw [switchStep_other K _ _ hd]
      rcases hf with ⟨i, h2, hlt, hi, hlast, heq⟩ | ⟨hnone, heq⟩
      · left
        refine ⟨i, h2, by omega, hi, ?_, heq⟩
        intro k h1 h3
        by_cases hk : k = 2 + n
        · rw [hk]
          exact hd
        · exact hlast k h1 (by omega)
      · right
        refine ⟨?_, heq⟩
        intro i h1 h3
        by_cases hk : i = 2 + n
        · rw [hk]
          exact hd
        · exact hnone i h1 (by omega)

/-- C3: `load_parameters` returns 1 exactly when `argc < 2`; with `argc >= 2` it
returns 0, sets `*vide_fn` to `argv[1]` and sets `*four_cc` to the FourCC of the
four characters `argv[i][2 .. 5]` that follow "-f" in the last argument `i >= 2`
that starts with "-f", or to the FourCC of "GPS5" when there is none; an argument
that does not start with "-f" leaves `*four_cc` as it is. -/
theorem load_parameters_spec (K : Sdk) (argv : List Chars) (p0 : ParamState) :
    ((load_parameters K argv.length argv p0).1 = 1 ↔ argv.length < 2) ∧
    (2 ≤ argv.length →
      (load_parameters K argv.length argv p0).1 = 0 ∧
      (load_parameters K argv.length argv p0).2.vide_fn = argAt argv 1 ∧
      (∀ i, 2 ≤ i → i < argv.length → isDashF (argAt argv i) →
        (∀ k, i < k → k < argv.length → ¬ isDashF (argAt argv k)) →
        (load_parameters K argv.length argv p0).2.four_cc
          = K.STR2FOURCC (argAt argv i 2) (argAt argv i 3) (argAt argv i 4) (argAt argv i 5)) ∧
      ((∀ i, 2 ≤ i → i < argv.length → ¬ isDashF (argAt argv i)) →
        (load_parameters K argv.length argv p0).2.four_cc = SHOW_THIS_FOUR_CC K)) ∧
    (∀ (arg : Chars) (p : ParamState), ¬ isDashF arg →
      (switchStep K arg p).four_cc = p.four_cc) := by
  refine ⟨?_, ?_, fun arg p h => switchStep_other K arg p h⟩
  · unfold load_parameters
    by_cases h : argv.length < 2
    · simp [h]
    · simp [h]
  · intro h
    have hlt : ¬ argv.length < 2 := by omega
    have hlen : 2 + (argv.length - 2) = argv.length := by omega
    have hl := switch_loop K argv
      { vide_fn := argAt argv 1, four_cc := SHOW_THIS_FOUR_CC K, helps := p0.helps }
      (argv.length - 2)
    rw [hlen] at hl
    have hlp : load_parameters K argv.length argv p0
        = (0, forFrom 2 (fun i p => switchStep K (argAt argv i) p) (argv.length - 2)
            { vide_fn := argAt argv 1, four_cc := SHOW_THIS_FOUR_CC K, helps := p0.helps }) := by
      unfold load_parameters
      simp only [hlt, if_false]
    rw [hlp]
    refine ⟨rfl, hl.1, ?_, ?_⟩
    · intro i h2 hi hd hlast
      rcases hl.2 with ⟨m, hm2, hm, hmd, hmlast, heq⟩ | ⟨hnone, _⟩
      · have him : i = m := by
          rcases Nat.lt_trichotomy i m with h3 | h3 | h3
          · exact absurd hmd (hlast m h3 hm)
          · exact h3
          · exact absurd hd (hmlast i h3 hi)
        rw [him]
        exact heq
      · exact absurd hd (hnone i h2 hi)
    · intro hnone
      rcases hl.2 with ⟨m, hm2, hm, hmd, _, _⟩ | ⟨_, heq⟩
      · exact absurd hmd (hnone m hm2 hm)
      · exact heq

theorem load_parameters_spec_witness :
    (2 ≤ argvACCL.length ∧ isDashF (argAt argvACCL 2) ∧ 2 ≤ argvAll.length ∧
        isDashF (argAt argvAll 2)) ∧
      (load_parameters sdk argvACCL.length argvACCL unsetParams).1 = 0 ∧
      (load_parameters sdk argvACCL.length argvACCL unsetParams).2.vide_fn = argAt argvACCL 1 ∧
      (load_parameters sdk argvACCL.length argvACCL unsetParams).2.four_cc
        = sdk.STR2FOURCC 65 67 67 76 ∧
      (load_parameters sdk argvAll.length argvAll unsetParams).2.four_cc
        = sdk.STR2FOURCC 0 72 79 77 :=
  ⟨⟨by decide, by decide, by decide, by decide⟩,
   ((load_parameters_spec sdk argvACCL unsetParams).2.1 (by decide)).1,
   ((load_parameters_spec sdk argvACCL unsetParams).2.1 (by decide)).2.1,
   ((load_parameters_spec sdk argvACCL unsetParams).2.1 (by decide)).2.2.1 2 (by decide)
     (by decide) (by decide) (by
       intro k h1 h2
       have hk : k = 3 := by
         have : k < 4 := h2
         omega
       rw [hk]
       decide),
   ((load_parameters_spec sdk argvAll unsetParams).2.1 (by decide)).2.2.1 2 (by decide)
     (by decide) (by decide) (by
       intro k h1 h2
       have : k < 3 := h2
       omega)⟩

/-! ## The unit table -/

/-- What the copy loop of lines 157-162 has done after `n` labels: the `data`
pointer has moved by the clamped size for each label. -/
theorem unitsFill (a : Annotation) (ssize : Nat) (u0 : UnitTable) (n : Nat) :
    (forLoop (unitsCopyStep a ssize) n { units := u0, data := 0 }).data = n * ssize ∧
    ∀ r c, (forLoop (unitsCopyStep a ssize) n { units := u0, data := 0 }).units r c
      = if r < n then
          (if c < ssize then a.RawData (r * ssize + c) else if c = ssize then 0 else u0 r c)
        else u0 r c := by
  induction n with
  | zero =>
    refine ⟨by simp [forLoop], ?_⟩
    intro r c
    simp [forLoop]
  | succ n ih =>
    obtain ⟨hd, hu⟩ := ih
    have hstep : forLoop (unitsCopyStep a ssize) (n + 1) { units := u0, data := 0 }
        = unitsCopyStep a ssize n (forLoop (unitsCopyStep a ssize) n { units := u0, data := 0 }) :=
      rfl
    rw [hstep]
    refine ⟨?_, ?_⟩
    · show (forLoop (unitsCopyStep a ssize) n { units := u0, data := 0 }).data + ssize = _
      rw [hd]
      ring
    · intro r c
      show (if r = n ∧ c = ssize then 0
            else if r = n ∧ c < ssize then
              a.RawData ((forLoop (unitsCopyStep a ssize) n { units := u0, data := 0 }).data + c)
            else (forLoop (unitsCopyStep a ssize) n { units := u0, data := 0 }).units r c) = _
      rw [hd, hu]
      by_cases hr : r = n
      · subst hr
        by_cases h1 : c < ssize
        · have h2 : c ≠ ssize := by omega
          simp [h1, h2]
        · by_cases h2 : c = ssize
          · simp [h2]
          · simp [h1, h2]
      · by_cases h3 : r < n
        · have h4 : r < n + 1 := by omega
          simp [hr, h3, h4]
        · have h4 : ¬ r < n + 1 := by omega
          simp [hr, h3, h4]

/-- The label copied into row `i` starts at byte `i * min(s, 7)` of the Units
record. -/
theorem unitsCopy_apply (u0 : UnitTable) (a : Annotation) (r c : Nat) :
    unitsCopy u0 a r c
      = if r < min a.Repeat MAX_UNITS then
          (if c < clampSize a.StructSize then a.RawData (r * clampSize a.StructSize + c)
           else if c = clampSize a.StructSize then 0 else u0 r c)
        else u0 r c := by
  unfold unitsCopy
  rw [forCond_zero a.Repeat MAX_UNITS _ _ (min_units_le a.Repeat)]
  exact (unitsFill a (clampSize a.StructSize) u0 (min a.Repeat MAX_UNITS)).2 r c

/-- C5: for a Units record of two 8-byte labels "ABCDEFGH", "IJKLMNOP" the label
`units[1]` that `main` copies is "HIJKLMN", the bytes `d[7 .. 14)`, while the
first 7 bytes of the second unit structure, `d[8 .. 15)`, are "IJKLMNO". -/
theorem units_label_stride :
    rowString ((unitsLookup (some longUnits) none).1 1) = [72, 73, 74, 75, 76, 77, 78] ∧
    (List.range (min longUnits.StructSize 7)).map
        (fun c => longUnits.RawData (1 * longUnits.StructSize + c))
      = [73, 74, 75, 76, 77, 78, 79] := by
  decide

/-! ## The print loop: a run that has ended -/

theorem elemStep_dead (K : Sdk) (r : Rec) (t : Tables) (j : Nat) (s : Cursor)
    (h : s.fault.isSome = true) : elemStep K r t j s = s := by
  unfold elemStep
  rw [if_pos h]

theorem emit_dead (e : Event) (s : Cursor) (h : s.fault.isSome = true) : emit e s = s := by
  unfold emit
  rw [if_pos h]

theorem forLoop_dead (body : Nat → Cursor → Cursor)
    (hb : ∀ i s, s.fault.isSome = true → body i s = s) (n : Nat) (s : Cursor)
    (h : s.fault.isSome = true) : forLoop body n s = s := by
  induction n with
  | zero => rfl
  | succ n ih =>
    show body n (forLoop body n s) = s
    rw [ih]
    exact hb n s h

theorem sampleStep_dead (K : Sdk) (r : Rec) (t : Tables) (i : Nat) (s : Cursor)
    (h : s.fault.isSome = true) : sampleStep K r t i s = s := by
  unfold sampleStep printKey
  rw [emit_dead _ s h, forLoop_dead _ (elemStep_dead K r t) _ s h, emit_dead _ s h]

theorem isSome_of_ne_none (o : Option Fault) (h : o ≠ none) : o.isSome = true := by
  cases o with
  | none => exact absurd rfl h
  | some f => rfl

theorem isSome_false_of_none (o : Option Fault) (h : o = none) : ¬ (o.isSome = true) := by
  rw [h]
  simp

/-- A step that leaves an ended run as it is and yields a live state was taken
in a live state. -/
theorem alive_before (f : Cursor → Cursor) (hf : ∀ s, s.fault.isSome = true → f s = s)
    (s : Cursor) (h : (f s).fault = none) : s.fault = none := by
  by_contra hs
  rw [hf s (isSome_of_ne_none _ hs)] at h
  exact hs h

/-- If a loop ends in a live state, every state on the way was live. -/
theorem forLoop_alive (body : Nat → Cursor → Cursor)
    (hb : ∀ i s, s.fault.isSome = true → body i s = s) (n m : Nat) (hm : m ≤ n) (s : Cursor)
    (h : (forLoop body n s).fault = none) : (forLoop body m s).fault = none := by
  induction n with
  | zero =>
    have h0 : m = 0 := by omega
    rw [h0]
    exact h
  | succ n ih =>
    by_cases hmn : m = n + 1
    · rw [hmn]
      exact h
    · exact ih (by omega) (alive_before (body n) (hb n) _ h)

/-! ## The print loop: one element -/

theorem branchOf_ne_none (K : Sdk) (r : Rec) (t : Tables) (j : Nat)
    (hF : K.GPMF_TYPE_FOURCC = 70) : branchOf K r t j ≠ none := by
  unfold branchOf
  split_ifs with h1 h2 h3 h4
  · simp
  · simp
  · simp
  · simp
  · exfalso
    apply h4
    refine ⟨h2, ?_⟩
    rw [hF]
    exact not_not.mp h3

/-- In a live state, an element all of whose accesses are defined runs the
selected branch. -/
theorem elemStep_of_alive (K : Sdk) (r : Rec) (t : Tables) (j : Nat) (s : Cursor)
    (hs : s.fault = none) (hf : elemFault K r t j = none) :
    elemStep K r t j s = runBranch K t j (branchOf K r t j) s := by
  unfold elemStep
  rw [if_neg (isSome_false_of_none _ hs), hf]

theorem runBranch_fault (K : Sdk) (t : Tables) (j : Nat) (b : Option Branch) (s : Cursor) :
    (runBranch K t j b s).fault = s.fault := by
  rcases b with _ | b
  · rfl
  · cases b <;> rfl

/-- An element that leaves the run live was reached live, made no undefined
access and ran the selected branch. -/
theorem elemStep_alive (K : Sdk) (r : Rec) (t : Tables) (j : Nat) (s : Cursor)
    (h : (elemStep K r t j s).fault = none) :
    s.fault = none ∧ elemFault K r t j = none ∧
      elemStep K r t j s = runBranch K t j (branchOf K r t j) s := by
  have hs : s.fault = none := alive_before (elemStep K r t j) (elemStep_dead K r t j) s h
  have hf : elemFault K r t j = none := by
    rcases hef : elemFault K r t j with _ | f
    · rfl
    · exfalso
      unfold elemStep at h
      rw [if_neg (isSome_false_of_none _ hs), hef] at h
      cases h
  exact ⟨hs, hf, elemStep_of_alive K r t j s hs hf⟩

theorem runBranch_ptr (K : Sdk) (t : Tables) (j : Nat) (b : Branch) (s : Cursor) :
    (runBranch K t j (some b) s).ptr = s.ptr + 1 := by
  cases b <;> rfl

theorem elemStep_ptr (K : Sdk) (r : Rec) (t : Tables) (j : Nat) (s : Cursor)
    (hF : K.GPMF_TYPE_FOURCC = 70) (h : (elemStep K r t j s).fault = none) :
    (elemStep K r t j s).ptr = s.ptr + 1 := by
  rw [(elemStep_alive K r t j s h).2.2]
  rcases hb : branchOf K r t j with _ | b
  · exact absurd hb (branchOf_ne_none K r t j hF)
  · exact runBranch_ptr K t j b s

/-- Every branch prints one item; a number is read at the numeric cursor. -/
theorem elemStep_out (K : Sdk) (r : Rec) (t : Tables) (j : Nat) (s : Cursor)
    (hF : K.GPMF_TYPE_FOURCC = 70) (h : (elemStep K r t j s).fault = none) :
    ∃ e, (elemStep K r t j s).out = s.out ++ [e] ∧ ∀ p l, e = Event.num p l → p = s.ptr := by
  rw [(elemStep_alive K r t j s h).2.2]
  rcases hb : branchOf K r t j with _ | b
  · exact absurd hb (branchOf_ne_none K r t j hF)
  · cases b
    · exact ⟨Event.chr s.pos, rfl, fun p l h => by cases h⟩
    · exact ⟨Event.num s.ptr (unitLabel t j), rfl, fun p l h => by cases h; rfl⟩
    · exact ⟨Event.num s.ptr (unitLabel t j), rfl, fun p l h => by cases h; rfl⟩
    · exact ⟨Event.fourcc s.pos, rfl, fun p l h => by cases h⟩

theorem branchOf_string (K : Sdk) (r : Rec) (t : Tables) (j : Nat)
    (h : r.type = K.GPMF_TYPE_STRING_ASCII) : branchOf K r t j = some Branch.string := by
  unfold branchOf
  rw [if_pos h]

theorem branchOf_plain (K : Sdk) (r : Rec) (t : Tables) (j : Nat)
    (h : r.type ≠ K.GPMF_TYPE_STRING_ASCII) (h0 : t.type_samples = 0) :
    branchOf K r t j = some Branch.plain := by
  unfold branchOf
  rw [if_neg h, if_pos h0]

theorem branchOf_described (K : Sdk) (r : Rec) (t : Tables) (j : Nat)
    (hF : K.GPMF_TYPE_FOURCC = 70) (h : r.type ≠ K.GPMF_TYPE_STRING_ASCII)
    (h0 : t.type_samples ≠ 0) :
    (t.complextype j ≠ 70 ∧ branchOf K r t j = some Branch.typed) ∨
    (t.complextype j = 70 ∧ branchOf K r t j = some Branch.fourcc) := by
  unfold branchOf
  rw [if_neg h, if_neg h0]
  by_cases h3 : t.complextype j = 70
  · right
    refine ⟨h3, ?_⟩
    rw [if_neg (not_not.mpr h3), if_pos ⟨h0, by rw [hF]; exact h3⟩]
  · left
    exact ⟨h3, by rw [if_pos h3]⟩

theorem elemStep_pos_string (K : Sdk) (r : Rec) (t : Tables) (j : Nat) (s : Cursor)
    (h : r.type = K.GPMF_TYPE_STRING_ASCII) (ha : (elemStep K r t j s).fault = none) :
    (elemStep K r t j s).pos = s.pos + 1 ∧
      (elemStep K r t j s).out = s.out ++ [Event.chr s.pos] := by
  rw [(elemStep_alive K r t j s ha).2.2, branchOf_string K r t j h]
  exact ⟨rfl, rfl⟩

theorem elemStep_pos_described (K : Sdk) (r : Rec) (t : Tables) (j : Nat) (s : Cursor)
    (hF : K.GPMF_TYPE_FOURCC = 70) (h : r.type ≠ K.GPMF_TYPE_STRING_ASCII)
    (h0 : t.type_samples ≠ 0) (ha : (elemStep K r t j s).fault = none) :
    (elemStep K r t j s).pos = s.pos + K.GPMF_SizeofType (t.complextype j) ∧
      (t.complextype j = 70 → (elemStep K r t j s).out = s.out ++ [Event.fourcc s.pos]) := by
  rw [(elemStep_alive K r t j s ha).2.2]
  rcases branchOf_described K r t j hF h h0 with ⟨h3, hb⟩ | ⟨h3, hb⟩
  · rw [hb]
    exact ⟨rfl, fun h4 => absurd h4 h3⟩
  · rw [hb]
    exact ⟨rfl, fun _ => rfl⟩

theorem elemStep_plain (K : Sdk) (r : Rec) (t : Tables) (j : Nat) (s : Cursor)
    (h : r.type ≠ K.GPMF_TYPE_STRING_ASCII) (h0 : t.type_samples = 0)
    (ha : (elemStep K r t j s).fault = none) :
    (elemStep K r t j s).ptr = s.ptr + 1 ∧
      (elemStep K r t j s).out = s.out ++ [Event.num s.ptr (unitLabel t j)] := by
  rw [(elemStep_alive K r t j s ha).2.2, branchOf_plain K r t j h h0]
  exact ⟨rfl, rfl⟩

/-! ## The print loop: one sample -/

theorem emit_of_alive (e : Event) (s : Cursor) (h : s.fault = none) :
    emit e s = { s with out := s.out ++ [e] } := by
  unfold emit
  rw [if_neg (isSome_false_of_none _ h)]

/-- A sample that leaves the run live was reached live, printed its key, ran its
elements live and printed the newline. -/
theorem sampleStep_alive (K : Sdk) (r : Rec) (t : Tables) (i : Nat) (s : Cursor)
    (h : (sampleStep K r t i s).fault = none) :
    s.fault = none ∧
    printKey r s = { s with out := s.out ++ [Event.key r.key] } ∧
    (forLoop (elemStep K r t) r.elements (printKey r s)).fault = none ∧
    sampleStep K r t i s
      = { forLoop (elemStep K r t) r.elements (printKey r s) with
          out := (forLoop (elemStep K r t) r.elements (printKey r s)).out ++ [Event.newline] } := by
  have hs : s.fault = none := alive_before (sampleStep K r t i) (sampleStep_dead K r t i) s h
  have hx : (forLoop (elemStep K r t) r.elements (printKey r s)).fault = none :=
    alive_before (emit Event.newline) (emit_dead Event.newline) _ h
  exact ⟨hs, emit_of_alive _ s hs, hx, emit_of_alive _ _ hx⟩

/-- In a run without undefined access, element `j` of sample `i` is reached and
leaves the run live. -/
theorem reach_alive (K : Sdk) (r : Rec) (t : Tables) (hdef : (printLoop K r t).fault = none)
    (i j : Nat) (hi : i < r.samples) (hj : j < r.elements) :
    (elemStep K r t j (reach K r t i j)).fault = none := by
  have h1 : (forLoop (sampleStep K r t) (i + 1) start).fault = none :=
    forLoop_alive (sampleStep K r t) (sampleStep_dead K r t) r.samples (i + 1) (by omega)
      start hdef
  have h2 := (sampleStep_alive K r t i (forLoop (sampleStep K r t) i start) h1).2.2.1
  exact forLoop_alive (elemStep K r t) (elemStep_dead K r t) r.elements (j + 1) (by omega) _ h2

/-! ## The print loop: the numeric cursor -/

theorem elems_ptr (K : Sdk) (r : Rec) (t : Tables) (hF : K.GPMF_TYPE_FOURCC = 70)
    (n : Nat) (s : Cursor) (h : (forLoop (elemStep K r t) n s).fault = none) :
    (forLoop (elemStep K r t) n s).ptr = s.ptr + n := by
  induction n with
  | zero => rfl
  | succ n ih =>
    have h1 : (elemStep K r t n (forLoop (elemStep K r t) n s)).fault = none := h
    show (elemStep K r t n (forLoop (elemStep K r t) n s)).ptr = _
    rw [elemStep_ptr K r t n _ hF h1, ih (elemStep_alive K r t n _ h1).1]
    rfl

theorem sampleStep_ptr (K : Sdk) (r : Rec) (t : Tables) (hF : K.GPMF_TYPE_FOURCC = 70)
    (i : Nat) (s : Cursor) (h : (sampleStep K r t i s).fault = none) :
    (sampleStep K r t i s).ptr = s.ptr + r.elements := by
  obtain ⟨_, hk, hx, heq⟩ := sampleStep_alive K r t i s h
  rw [heq]
  show (forLoop (elemStep K r t) r.elements (printKey r s)).ptr = _
  rw [elems_ptr K r t hF _ _ hx, hk]

theorem samples_ptr (K : Sdk) (r : Rec) (t : Tables) (hF : K.GPMF_TYPE_FOURCC = 70)
    (n : Nat) (s : Cursor) (h : (forLoop (sampleStep K r t) n s).fault = none) :
    (forLoop (sampleStep K r t) n s).ptr = s.ptr + n * r.elements := by
  induction n with
  | zero => simp [forLoop]
  | succ n ih =>
    have h1 : (sampleStep K r t n (forLoop (sampleStep K r t) n s)).fault = none := h
    show (sampleStep K r t n (forLoop (sampleStep K r t) n s)).ptr = _
    rw [sampleStep_ptr K r t hF n _ h1, ih (sampleStep_alive K r t n _ h1).1]
    ring

theorem reach_ptr (K : Sdk) (r : Rec) (t : Tables) (hF : K.GPMF_TYPE_FOURCC = 70)
    (i j : Nat) (h : (reach K r t i j).fault = none) :
    (reach K r t i j).ptr = i * r.elements + j := by
  have hk : (printKey r (forLoop (sampleStep K r t) i start)).fault = none :=
    forLoop_alive (elemStep K r t) (elemStep_dead K r t) j 0 (by omega) _ h
  have hs : (forLoop (sampleStep K r t) i start).fault = none :=
    alive_before (emit (Event.key r.key)) (emit_dead _) _ hk
  unfold reach at h ⊢
  rw [elems_ptr K r t hF j _ h]
  show (emit (Event.key r.key) (forLoop (sampleStep K r t) i start)).ptr + j = _
  rw [emit_of_alive _ _ hs]
  show (forLoop (sampleStep K r t) i start).ptr + j = _
  rw [samples_ptr K r t hF i start hs]
  show 0 + i * r.elements + j = _
  rw [Nat.zero_add]

theorem row_major_bound (samples elements i j : Nat) (hi : i < samples) (hj : j < elements) :
    i * elements + j + 1 ≤ samples * elements := by
  have h1 : (i + 1) * elements ≤ samples * elements := Nat.mul_le_mul_right elements hi
  have h2 : (i + 1) * elements = i * elements + elements := by ring
  omega

theorem printLoop_ptr (K : Sdk) (r : Rec) (t : Tables) (hF : K.GPMF_TYPE_FOURCC = 70)
    (hdef : (printLoop K r t).fault = none) :
    (printLoop K r t).ptr = r.samples * r.elements := by
  show (forLoop (sampleStep K r t) r.samples start).ptr = _
  rw [samples_ptr K r t hF r.samples start hdef]
  show 0 + r.samples * r.elements = _
  rw [Nat.zero_add]

/-- C7: in a run of the print loop without undefined access, with
`GPMF_TYPE_FOURCC` being the tag 'F', for every sample `i < samples` and element
`j < elements` one of the four branches runs and moves `ptr` by one double; on
reaching element `j` of sample `i`, `ptr = tmpbuffer + i*elements + j`; the
element prints one item, and if that is a number it is `tmpbuffer[i*elements + j]`;
`ptr` stays within `tmpbuffer + samples*elements` and ends there. -/
theorem numeric_cursor_row_major (K : Sdk) (r : Rec) (t : Tables)
    (hF : K.GPMF_TYPE_FOURCC = 70) (hdef : (printLoop K r t).fault = none)
    (i j : Nat) (hi : i < r.samples) (hj : j < r.elements) :
    branchOf K r t j ≠ none ∧
    elemStep K r t j (reach K r t i j)
      = runBranch K t j (branchOf K r t j) (reach K r t i j) ∧
    (∀ s : Cursor, s.fault = none → (elemStep K r t j s).ptr = s.ptr + 1) ∧
    (reach K r t i j).ptr = i * r.elements + j ∧
    (∃ e, (elemStep K r t j (reach K r t i j)).out = (reach K r t i j).out ++ [e] ∧
      ∀ p l, e = Event.num p l → p = i * r.elements + j) ∧
    (reach K r t i j).ptr < r.samples * r.elements ∧
    (elemStep K r t j (reach K r t i j)).ptr ≤ r.samples * r.elements ∧
    (printLoop K r t).ptr = r.samples * r.elements := by
  have hb := row_major_bound r.samples r.elements i j hi hj
  have ha := reach_alive K r t hdef i j hi hj
  obtain ⟨hra, hef, hrun⟩ := elemStep_alive K r t j _ ha
  have hr := reach_ptr K r t hF i j hra
  refine ⟨branchOf_ne_none K r t j hF, hrun, ?_, hr, ?_, ?_, ?_, printLoop_ptr K r t hF hdef⟩
  · intro s hs
    apply elemStep_ptr K r t j s hF
    rw [elemStep_of_alive K r t j s hs hef, runBranch_fault]
    exact hs
  · obtain ⟨e, he, hp⟩ := elemStep_out K r t j (reach K r t i j) hF ha
    exact ⟨e, he, fun p l h => by rw [hp p l h, hr]⟩
  · omega
  · rw [elemStep_ptr K r t j _ hF ha, hr]
    exact hb

theorem numeric_cursor_row_major_witness :
    (sdk.GPMF_TYPE_FOURCC = 70 ∧ (printLoop sdk gpsRec (tablesOf gpsStrm)).fault = none ∧
        1 < gpsRec.samples ∧ 2 < gpsRec.elements) ∧
      (reach sdk gpsRec (tablesOf gpsStrm) 1 2).ptr = 1 * gpsRec.elements + 2 ∧
      (printLoop sdk gpsRec (tablesOf gpsStrm)).ptr = gpsRec.samples * gpsRec.elements :=
  ⟨⟨rfl, by decide, by decide, by decide⟩,
   (numeric_cursor_row_major sdk gpsRec (tablesOf gpsStrm) rfl (by decide) 1 2
      (by decide) (by decide)).2.2.2.1,
   (numeric_cursor_row_major sdk gpsRec (tablesOf gpsStrm) rfl (by decide) 1 2
      (by decide) (by decide)).2.2.2.2.2.2.2⟩

/-! ## The buffer and the print loop -/

theorem elems_pos_string (K : Sdk) (r : Rec) (t : Tables)
    (h : r.type = K.GPMF_TYPE_STRING_ASCII) (n : Nat) (s : Cursor)
    (ha : (forLoop (elemStep K r t) n s).fault = none) :
    (forLoop (elemStep K r t) n s).pos = s.pos + n := by
  induction n with
  | zero => rfl
  | succ n ih =>
    have h1 : (elemStep K r t n (forLoop (elemStep K r t) n s)).fault = none := ha
    show (elemStep K r t n (forLoop (elemStep K r t) n s)).pos = _
    rw [(elemStep_pos_string K r t n _ h h1).1, ih (elemStep_alive K r t n _ h1).1]
    rfl

theorem samples_pos_string (K : Sdk) (r : Rec) (t : Tables)
    (h : r.type = K.GPMF_TYPE_STRING_ASCII) (n : Nat) (s : Cursor)
    (ha : (forLoop (sampleStep K r t) n s).fault = none) :
    (forLoop (sampleStep K r t) n s).pos = s.pos + n * r.elements := by
  induction n with
  | zero => simp [forLoop]
  | succ n ih =>
    have h1 : (sampleStep K r t n (forLoop (sampleStep K r t) n s)).fault = none := ha
    obtain ⟨hs, hk, hx, heq⟩ := sampleStep_alive K r t n _ h1
    show (sampleStep K r t n (forLoop (sampleStep K r t) n s)).pos = _
    rw [heq]
    show (forLoop (elemStep K r t) r.elements
      (printKey r (forLoop (sampleStep K r t) n s))).pos = _
    rw [elems_pos_string K r t h _ _ hx, hk]
    show (forLoop (sampleStep K r t) n s).pos + r.elements = _
    rw [ih hs]
    ring

theorem reach_parts (K : Sdk) (r : Rec) (t : Tables) (i j : Nat)
    (h : (reach K r t i j).fault = none) :
    (forLoop (sampleStep K r t) i start).fault = none ∧
    printKey r (forLoop (sampleStep K r t) i start)
      = { forLoop (sampleStep K r t) i start with
          out := (forLoop (sampleStep K r t) i start).out ++ [Event.key r.key] } := by
  have hk : (printKey r (forLoop (sampleStep K r t) i start)).fault = none :=
    forLoop_alive (elemStep K r t) (elemStep_dead K r t) j 0 (by omega) _ h
  have hs : (forLoop (sampleStep K r t) i start).fault = none :=
    alive_before (emit (Event.key r.key)) (emit_dead _) _ hk
  exact ⟨hs, emit_of_alive _ _ hs⟩

theorem reach_pos_string (K : Sdk) (r : Rec) (t : Tables)
    (h : r.type = K.GPMF_TYPE_STRING_ASCII) (i j : Nat)
    (ha : (reach K r t i j).fault = none) :
    (reach K r t i j).pos = i * r.elements + j := by
  obtain ⟨hs, hk⟩ := reach_parts K r t i j ha
  unfold reach at ha ⊢
  rw [elems_pos_string K r t h j _ ha, hk]
  show (forLoop (sampleStep K r t) i start).pos + j = _
  rw [samples_pos_string K r t h i start hs]
  show 0 + i * r.elements + j = _
  rw [Nat.zero_add]

theorem sizeSum_succ (K : Sdk) (d : Nat → Nat) (n : Nat) :
    sizeSum K d (n + 1) = sizeSum K d n + K.GPMF_SizeofType (d n) := by
  unfold sizeSum
  rw [List.range_succ, List.map_append, List.sum_append]
  simp

theorem sizeSum_congr (K : Sdk) (d e : Nat → Nat) (n : Nat) (h : ∀ k, k < n → d k = e k) :
    sizeSum K d n = sizeSum K e n := by
  unfold sizeSum
  congr 1
  apply List.map_congr_left
  intro k hk
  rw [h k (List.mem_range.mp hk)]

theorem elems_pos_described (K : Sdk) (r : Rec) (t : Tables)
    (hF : K.GPMF_TYPE_FOURCC = 70) (h : r.type ≠ K.GPMF_TYPE_STRING_ASCII)
    (h0 : t.type_samples ≠ 0) (n : Nat) (s : Cursor)
    (ha : (forLoop (elemStep K r t) n s).fault = none) :
    (forLoop (elemStep K r t) n s).pos = s.pos + sizeSum K t.complextype n := by
  induction n with
  | zero => simp [forLoop, sizeSum]
  | succ n ih =>
    have h1 : (elemStep K r t n (forLoop (elemStep K r t) n s)).fault = none := ha
    show (elemStep K r t n (forLoop (elemStep K r t) n s)).pos = _
    rw [(elemStep_pos_described K r t n _ hF h h0 h1).1, ih (elemStep_alive K r t n _ h1).1,
      sizeSum_succ]
    ring

theorem samples_pos_described (K : Sdk) (r : Rec) (t : Tables)
    (hF : K.GPMF_TYPE_FOURCC = 70) (h : r.type ≠ K.GPMF_TYPE_STRING_ASCII)
    (h0 : t.type_samples ≠ 0) (n : Nat) (s : Cursor)
    (ha : (forLoop (sampleStep K r t) n s).fault = none) :
    (forLoop (sampleStep K r t) n s).pos
      = s.pos + n * sizeSum K t.complextype r.elements := by
  induction n with
  | zero => simp [forLoop]
  | succ n ih =>
    have h1 : (sampleStep K r t n (forLoop (sampleStep K r t) n s)).fault = none := ha
    obtain ⟨hs, hk, hx, heq⟩ := sampleStep_alive K r t n _ h1
    show (sampleStep K r t n (forLoop (sampleStep K r t) n s)).pos = _
    rw [heq]
    show (forLoop (elemStep K r t) r.elements
      (printKey r (forLoop (sampleStep K r t) n s))).pos = _
    rw [elems_pos_described K r t hF h h0 _ _ hx, hk]
    show (forLoop (sampleStep K r t) n s).pos + _ = _
    rw [ih hs]
    ring

theorem reach_pos_described (K : Sdk) (r : Rec) (t : Tables)
    (hF : K.GPMF_TYPE_FOURCC = 70) (h : r.type ≠ K.GPMF_TYPE_STRING_ASCII)
    (h0 : t.type_samples ≠ 0) (i j : Nat) (ha : (reach K r t i j).fault = none) :
    (reach K r t i j).pos
      = i * sizeSum K t.complextype r.elements + sizeSum K t.complextype j := by
  obtain ⟨hs, hk⟩ := reach_parts K r t i j ha
  unfold reach at ha ⊢
  rw [elems_pos_described K r t hF h h0 j _ ha, hk]
  show (forLoop (sampleStep K r t) i start).pos + _ = _
  rw [samples_pos_described K r t hF h h0 i start hs]
  show 0 + _ + _ = _
  rw [Nat.zero_add]

theorem tablesOf_type (s : Strm) (a : Annotation) (h : s.typeDesc = some a) :
    (tablesOf s).type_samples = a.Repeat ∧
      ∀ k, k < min a.Repeat 64 → (tablesOf s).complextype k = a.RawData k := by
  unfold tablesOf
  rw [h]
  refine ⟨rfl, ?_⟩
  intro k hk
  show (typeLookup (some a)).1 k = _
  rw [typeLookup_apply]
  exact if_pos hk

/-- C8: in a run of the print loop without undefined access, on reaching element
`j` of sample `i` the raw-byte cursor is `pos = i*elements + j` for an
ASCII-string record, whose element then prints the character at that offset; for
a record that is not a string and has a Type-descriptor `a` covering all elements
(`elements = type_samples <= 64`) whose element sizes sum to `structsize`, with
`GPMF_TYPE_FOURCC` being the tag 'F', `pos = i*structsize + sum over k < j of
sizeof(a[k])`, and an element of type 'F' prints the four raw bytes at that
offset. -/
theorem raw_cursor_offset (K : Sdk) (s : Strm)
    (hdef : (printLoop K s.record (tablesOf s)).fault = none)
    (i j : Nat) (hi : i < s.record.samples) (hj : j < s.record.elements) :
    (s.record.type = K.GPMF_TYPE_STRING_ASCII →
      (reach K s.record (tablesOf s) i j).pos = i * s.record.elements + j ∧
      (elemStep K s.record (tablesOf s) j (reach K s.record (tablesOf s) i j)).out
        = (reach K s.record (tablesOf s) i j).out ++ [Event.chr (i * s.record.elements + j)]) ∧
    (∀ (a : Annotation) (structsize : Nat),
      K.GPMF_TYPE_FOURCC = 70 → s.record.type ≠ K.GPMF_TYPE_STRING_ASCII →
      s.typeDesc = some a → a.Repeat = s.record.elements → s.record.elements ≤ 64 →
      sizeSum K a.RawData s.record.elements = structsize →
      (reach K s.record (tablesOf s) i j).pos = i * structsize + sizeSum K a.RawData j ∧
      (a.RawData j = 70 →
        (elemStep K s.record (tablesOf s) j (reach K s.record (tablesOf s) i j)).out
          = (reach K s.record (tablesOf s) i j).out
              ++ [Event.fourcc (i * structsize + sizeSum K a.RawData j)])) := by
  have ha := reach_alive K s.record (tablesOf s) hdef i j hi hj
  have hra := (elemStep_alive K s.record (tablesOf s) j _ ha).1
  constructor
  · intro h
    have hp := reach_pos_string K s.record (tablesOf s) h i j hra
    refine ⟨hp, ?_⟩
    rw [(elemStep_pos_string K s.record (tablesOf s) j _ h ha).2, hp]
  · intro a structsize hF h hd hrep h64 hsum
    obtain ⟨hts, hct⟩ := tablesOf_type s a hd
    have hmin : min a.Repeat 64 = s.record.elements := by
      rw [hrep]
      exact min_eq_left h64
    rw [hmin] at hct
    have h0 : (tablesOf s).type_samples ≠ 0 := by
      rw [hts, hrep]
      omega
    have hall : sizeSum K (tablesOf s).complextype s.record.elements = structsize := by
      rw [sizeSum_congr K _ a.RawData s.record.elements hct]
      exact hsum
    have hpre : sizeSum K (tablesOf s).complextype j = sizeSum K a.RawData j :=
      sizeSum_congr K _ a.RawData j (fun k hk => hct k (by omega))
    have hp : (reach K s.record (tablesOf s) i j).pos
        = i * structsize + sizeSum K a.RawData j := by
      rw [reach_pos_described K s.record (tablesOf s) hF h h0 i j hra, hall, hpre]
    refine ⟨hp, ?_⟩
    intro h70
    have hc : (tablesOf s).complextype j = 70 := by
      rw [hct j hj]
      exact h70
    rw [(elemStep_pos_described K s.record (tablesOf s) j _ hF h h0 ha).2 hc, hp]

theorem raw_cursor_offset_witness :
    ((printLoop sdk mixedStrm.record (tablesOf mixedStrm)).fault = none ∧
        1 < mixedStrm.record.samples ∧ 1 < mixedStrm.record.elements ∧
        typeLFs.RawData 1 = 70 ∧
        (printLoop sdk nameStrm.record (tablesOf nameStrm)).fault = none ∧
        0 < nameStrm.record.samples ∧ 2 < nameStrm.record.elements) ∧
      (reach sdk mixedStrm.record (tablesOf mixedStrm) 1 1).pos = 1 * 10 + 4 ∧
      (elemStep sdk mixedStrm.record (tablesOf mixedStrm) 1
          (reach sdk mixedStrm.record (tablesOf mixedStrm) 1 1)).out
        = (reach sdk mixedStrm.record (tablesOf mixedStrm) 1 1).out ++ [Event.fourcc 14] ∧
      (reach sdk nameStrm.record (tablesOf nameStrm) 0 2).pos
        = 0 * nameStrm.record.elements + 2 :=
  ⟨⟨by decide, by decide, by decide, by decide, by decide, by decide, by decide⟩,
   ((raw_cursor_offset sdk mixedStrm (by decide) 1 1 (by decide) (by decide)).2 typeLFs 10 rfl
     (by decide) rfl rfl (by decide) (by decide)).1,
   ((raw_cursor_offset sdk mixedStrm (by decide) 1 1 (by decide) (by decide)).2 typeLFs 10 rfl
     (by decide) rfl rfl (by decide) (by decide)).2 (by decide),
   ((raw_cursor_offset sdk nameStrm (by decide) 0 2 (by decide) (by decide)).1 rfl).1⟩

/-! ## The print loop without annotations -/

theorem forLoop_invariant {σ : Type} (P : σ → Prop) (body : Nat → σ → σ)
    (hstep : ∀ i s, P s → P (body i s)) (n : Nat) (s : σ) (h : P s) :
    P (forLoop body n s) := by
  induction n with
  | zero => exact h
  | succ n ih => exact hstep n _ ih

/-- What one element adds to the output: nothing, or one item; a number carries
the label `units[j % unit_samples]`. -/
theorem elemStep_added (K : Sdk) (r : Rec) (t : Tables) (j : Nat) (s : Cursor) :
    (elemStep K r t j s).out = s.out ∨
    (∃ q, (elemStep K r t j s).out = s.out ++ [Event.chr q]) ∨
    (∃ q, (elemStep K r t j s).out = s.out ++ [Event.num q (unitLabel t j)]) ∨
    (∃ q, (elemStep K r t j s).out = s.out ++ [Event.fourcc q]) := by
  unfold elemStep
  split_ifs
  · exact Or.inl rfl
  · rcases elemFault K r t j with _ | f
    · rcases branchOf K r t j with _ | b
      · exact Or.inl rfl
      · cases b
        · exact Or.inr (Or.inl ⟨s.pos, rfl⟩)
        · exact Or.inr (Or.inr (Or.inl ⟨s.ptr, rfl⟩))
        · exact Or.inr (Or.inr (Or.inl ⟨s.ptr, rfl⟩))
        · exact Or.inr (Or.inr (Or.inr ⟨s.pos, rfl⟩))
    · exact Or.inl rfl

theorem emit_added (e : Event) (s : Cursor) :
    (emit e s).out = s.out ∨ (emit e s).out = s.out ++ [e] := by
  unfold emit
  split_ifs
  · exact Or.inl rfl
  · exact Or.inr rfl

/-- An invariant of the output that the key, the newline and every item of an
element keep is an invariant of the print loop. -/
theorem printLoop_invariant (K : Sdk) (r : Rec) (t : Tables) (P : List Event → Prop)
    (hnil : P [])
    (hkey : ∀ l, P l → P (l ++ [Event.key r.key]))
    (hnl : ∀ l, P l → P (l ++ [Event.newline]))
    (hchr : ∀ l q, P l → P (l ++ [Event.chr q]))
    (hnum : ∀ l q j, P l → P (l ++ [Event.num q (unitLabel t j)]))
    (hfcc : ∀ l q, P l → P (l ++ [Event.fourcc q])) :
    P (printLoop K r t).out := by
  have helem : ∀ j (s : Cursor), P s.out → P (elemStep K r t j s).out := by
    intro j s hs
    rcases elemStep_added K r t j s with h | ⟨q, h⟩ | ⟨q, h⟩ | ⟨q, h⟩
    · rw [h]
      exact hs
    · rw [h]
      exact hchr _ q hs
    · rw [h]
      exact hnum _ q j hs
    · rw [h]
      exact hfcc _ q hs
  have hemit : ∀ e (s : Cursor), (∀ l, P l → P (l ++ [e])) → P s.out → P (emit e s).out := by
    intro e s he hs
    rcases emit_added e s with h | h
    · rw [h]
      exact hs
    · rw [h]
      exact he _ hs
  have hsample : ∀ i (s : Cursor), P s.out → P (sampleStep K r t i s).out := by
    intro i s hs
    unfold sampleStep printKey
    apply hemit _ _ hnl
    exact forLoop_invariant (fun c : Cursor => P c.out) (elemStep K r t) helem r.elements
      _ (hemit _ _ hkey hs)
  exact forLoop_invariant (fun c : Cursor => P c.out) (sampleStep K r t) hsample r.samples
    start hnil

theorem tablesOf_no_units (s : Strm) (h1 : s.siUnits = none) (h2 : s.altUnits = none) :
    (tablesOf s).unit_samples = 1 ∧ (tablesOf s).units = fun _ _ => 0 := by
  unfold tablesOf unitsLookup foundUnits
  rw [h1, h2]
  exact ⟨rfl, rfl⟩

theorem elems_plain (K : Sdk) (r : Rec) (t : Tables)
    (h : r.type ≠ K.GPMF_TYPE_STRING_ASCII) (h0 : t.type_samples = 0) (n : Nat) (s : Cursor)
    (ha : (forLoop (elemStep K r t) n s).fault = none) :
    (forLoop (elemStep K r t) n s).ptr = s.ptr + n ∧
    (forLoop (elemStep K r t) n s).out
      = s.out ++ (List.range n).map (fun j => Event.num (s.ptr + j) (unitLabel t j)) := by
  induction n with
  | zero => simp [forLoop]
  | succ n ih =>
    have h1 : (elemStep K r t n (forLoop (elemStep K r t) n s)).fault = none := ha
    obtain ⟨hp, ho⟩ := ih (elemStep_alive K r t n _ h1).1
    have hs := elemStep_plain K r t n (forLoop (elemStep K r t) n s) h h0 h1
    constructor
    · show (elemStep K r t n (forLoop (elemStep K r t) n s)).ptr = _
      rw [hs.1, hp]
      rfl
    · show (elemStep K r t n (forLoop (elemStep K r t) n s)).out = _
      rw [hs.2, hp, ho, List.range_succ, List.map_append, List.append_assoc]
      rfl

theorem samples_plain (K : Sdk) (r : Rec) (t : Tables)
    (h : r.type ≠ K.GPMF_TYPE_STRING_ASCII) (h0 : t.type_samples = 0) (n : Nat)
    (ha : (forLoop (sampleStep K r t) n start).fault = none) :
    (forLoop (sampleStep K r t) n start).ptr = n * r.elements ∧
    (forLoop (sampleStep K r t) n start).out
      = (List.range n).flatMap (fun i =>
          [Event.key r.key]
            ++ (List.range r.elements).map
                (fun j => Event.num (i * r.elements + j) (unitLabel t j))
            ++ [Event.newline]) := by
  induction n with
  | zero => exact ⟨by simp [forLoop, start], rfl⟩
  | succ n ih =>
    have h1 : (sampleStep K r t n (forLoop (sampleStep K r t) n start)).fault = none := ha
    obtain ⟨hs, hk, hx, heq⟩ := sampleStep_alive K r t n _ h1
    obtain ⟨hp, ho⟩ := ih hs
    have he := elems_plain K r t h h0 r.elements
      (printKey r (forLoop (sampleStep K r t) n start)) hx
    have hpk : (printKey r (forLoop (sampleStep K r t) n start)).ptr = n * r.elements := by
      rw [hk]
      exact hp
    have hok : (printKey r (forLoop (sampleStep K r t) n start)).out
        = (forLoop (sampleStep K r t) n start).out ++ [Event.key r.key] := by
      rw [hk]
    constructor
    · show (sampleStep K r t n (forLoop (sampleStep K r t) n start)).ptr = _
      rw [heq]
      show (forLoop (elemStep K r t) r.elements
        (printKey r (forLoop (sampleStep K r t) n start))).ptr = _
      rw [he.1, hpk]
      ring
    · show (sampleStep K r t n (forLoop (sampleStep K r t) n start)).out = _
      rw [heq]
      show (forLoop (elemStep K r t) r.elements
        (printKey r (forLoop (sampleStep K r t) n start))).out ++ [Event.newline] = _
      rw [he.2, hpk, hok, ho, List.range_succ, List.flatMap_append, List.flatMap_singleton]
      simp only [List.append_assoc]

/-- C6: if neither Units key is found, `unit_samples` stays 1, `units[0]` is the
empty string and every number that is printed carries the empty label; if no
Type-descriptor is found and the record is not an ASCII string, `type_samples = 0`
and every element selects the branch of line 200, so in a run of the print loop
without undefined access every element of every sample is printed as one number
taken from the output buffer in order, and no FourCC raw bytes are printed. -/
theorem absent_annotations (K : Sdk) (s : Strm) :
    (s.siUnits = none → s.altUnits = none →
      (tablesOf s).unit_samples = 1 ∧ rowString ((tablesOf s).units 0) = [] ∧
      (∀ j, unitFault (tablesOf s) j = none) ∧
      ∀ p l, Event.num p l ∈ (printLoop K s.record (tablesOf s)).out → l = []) ∧
    (s.typeDesc = none → s.record.type ≠ K.GPMF_TYPE_STRING_ASCII →
      (tablesOf s).type_samples = 0 ∧
      (∀ j, branchOf K s.record (tablesOf s) j = some Branch.plain) ∧
      ((printLoop K s.record (tablesOf s)).fault = none →
        (printLoop K s.record (tablesOf s)).out = plainOutput s.record (tablesOf s) ∧
        ∀ p, Event.fourcc p ∉ (printLoop K s.record (tablesOf s)).out)) := by
  constructor
  · intro h1 h2
    obtain ⟨hu, ht⟩ := tablesOf_no_units s h1 h2
    have hlabel : ∀ j, unitLabel (tablesOf s) j = [] := by
      intro j
      unfold unitLabel
      rw [ht]
      rfl
    have hfault : ∀ j, unitFault (tablesOf s) j = none := by
      intro j
      unfold unitFault
      rw [hu, if_neg (by decide), Nat.mod_one, if_neg (by decide)]
    refine ⟨hu, by rw [ht]; rfl, hfault, ?_⟩
    apply printLoop_invariant K s.record (tablesOf s)
      (fun out => ∀ p l, Event.num p l ∈ out → l = [])
    · intro p l hm
      cases hm
    · intro out ho p l hm
      rcases List.mem_append.mp hm with hm | hm
      · exact ho p l hm
      · simp at hm
    · intro out ho p l hm
      rcases List.mem_append.mp hm with hm | hm
      · exact ho p l hm
      · simp at hm
    · intro out q ho p l hm
      rcases List.mem_append.mp hm with hm | hm
      · exact ho p l hm
      · simp at hm
    · intro out q j ho p l hm
      rcases List.mem_append.mp hm with hm | hm
      · exact ho p l hm
      · rw [hlabel j] at hm
        simp at hm
        exact hm.2
    · intro out q ho p l hm
      rcases List.mem_append.mp hm with hm | hm
      · exact ho p l hm
      · simp at hm
  · intro h1 h2
    have h0 : (tablesOf s).type_samples = 0 := by
      unfold tablesOf
      rw [h1]
      rfl
    refine ⟨h0, fun j => branchOf_plain K s.record (tablesOf s) j h2 h0, ?_⟩
    intro hdef
    have hout : (printLoop K s.record (tablesOf s)).out = plainOutput s.record (tablesOf s) :=
      (samples_plain K s.record (tablesOf s) h2 h0 s.record.samples hdef).2
    refine ⟨hout, ?_⟩
    intro p hm
    rw [hout] at hm
    unfold plainOutput at hm
    obtain ⟨i, _, hi⟩ := List.mem_flatMap.mp hm
    simp at hi

theorem absent_annotations_witness :
    (mixedStrm.siUnits = none ∧ mixedStrm.altUnits = none) ∧
      ((tablesOf mixedStrm).unit_samples = 1 ∧ rowString ((tablesOf mixedStrm).units 0) = [] ∧
        (∀ j, unitFault (tablesOf mixedStrm) j = none) ∧
        ∀ p l, Event.num p l ∈ (printLoop sdk mixedStrm.record (tablesOf mixedStrm)).out →
          l = []) ∧
      (gpsStrm.typeDesc = none ∧ gpsStrm.record.type ≠ sdk.GPMF_TYPE_STRING_ASCII ∧
        (printLoop sdk gpsStrm.record (tablesOf gpsStrm)).fault = none) ∧
      (printLoop sdk gpsStrm.record (tablesOf gpsStrm)).out
        = plainOutput gpsStrm.record (tablesOf gpsStrm) :=
  ⟨⟨rfl, rfl⟩, (absent_annotations sdk mixedStrm).1 rfl rfl, ⟨rfl, by decide, by decide⟩,
   (((absent_annotations sdk gpsStrm).2 rfl (by decide)).2.2 (by decide)).1⟩

set_option maxRecDepth 1000000 in
/-- C10: with a Units record of repeat count 0 the print loop evaluates
`j % unit_samples` with a zero modulus at the first element, after printing only
the key; for a record of 66 elements with a Type-descriptor it reads
`complextype[64]`, and for a record of 66 elements with 100 unit labels it reads
`units[64]`, both outside the tables of 64 entries. Each run ends there. -/
theorem print_loop_undefined_accesses :
    ((printLoop sdk zeroUnitsStrm.record (tablesOf zeroUnitsStrm)).fault
        = some (Fault.modZero 0) ∧
      (printLoop sdk zeroUnitsStrm.record (tablesOf zeroUnitsStrm)).out
        = [Event.key 894652487]) ∧
    ((printLoop sdk wideStrm.record (tablesOf wideStrm)).fault = some (Fault.typeIndex 64) ∧
      (printLoop sdk wideStrm.record (tablesOf wideStrm)).ptr = 64) ∧
    ((printLoop sdk wideUnitsStrm.record (tablesOf wideUnitsStrm)).fault
        = some (Fault.unitsIndex 64) ∧
      (printLoop sdk wideUnitsStrm.record (tablesOf wideUnitsStrm)).ptr = 64) := by
  decide

/-! ## main -/

/-- C2: on the command line `extract clip.mp4 -f` and a file whose only stream
holds no samples, every payload is fetched, timed and initialised and the only
result that is not `GPMF_OK` is the `GPMF_ERROR_FIND` of `GPMF_SeekToSamples`;
`main` returns 4 and prints "GPMF data has corruption". -/
theorem seek_miss_reported :
    (main sdk 3 argvAll seekMiss).ret = GPMF_ERROR_FIND ∧
    (main sdk 3 argvAll seekMiss).out
      = [Event.init 0, Event.reset 0, Event.corruption] := by
  decide

/-- C1: in a file of two payloads where `GPMF_Init` fails on payload 0, `main`
never initialises payload 1: it stops after payload 0, reports corruption and
returns the error. -/
theorem init_failure_stops_run :
    (0 < twoPayloads.payloads.length - 1 ∧ badPayload.initRes ≠ sdk.GPMF_OK) ∧
    Event.init 1 ∉ (main sdk 2 argvDefault twoPayloads).out ∧
    main sdk 2 argvDefault twoPayloads
      = { ret := 2, out := [Event.init 0, Event.corruption], fault := none } := by
  decide

theorem payloadLoop_cons (K : Sdk) (four_cc idx : Nat) (q : Payload) (rest : List Payload)
    (st : Run) :
    payloadLoop K four_cc idx (q :: rest) st
      = if st.fault.isSome then st
        else if q.payload = false then st
        else if q.timeRes ≠ K.GPMF_OK then { st with ret := q.timeRes }
        else if q.initRes ≠ K.GPMF_OK then
          { st with ret := q.initRes, out := st.out ++ [Event.init idx] }
        else payloadLoop K four_cc (idx + 1) rest
          (note (Event.reset idx) (strmLoop K four_cc q.strms
            { st with ret := q.initRes, out := st.out ++ [Event.init idx] })) :=
  rfl

/-- The payloads after one that fails are never looked at. -/
theorem payloadLoop_take (K : Sdk) (four_cc : Nat) :
    ∀ (ps : List Payload) (k idx : Nat) (p : Payload) (st : Run),
      ps[k]? = some p → (p.timeRes ≠ K.GPMF_OK ∨ p.initRes ≠ K.GPMF_OK) →
      payloadLoop K four_cc idx ps st = payloadLoop K four_cc idx (ps.take (k + 1)) st := by
  intro ps
  induction ps with
  | nil =>
    intro k idx p st hk
    simp at hk
  | cons q rest ih =>
    intro k idx p st hk hfail
    cases k with
    | zero =>
      have hq : q = p := by simpa using hk
      subst hq
      have ht : List.take (0 + 1) (q :: rest) = [q] := by simp
      rw [ht, payloadLoop_cons, payloadLoop_cons]
      by_cases hd : st.fault.isSome = true
      · rw [if_pos hd, if_pos hd]
      · rw [if_neg hd, if_neg hd]
        by_cases h1 : q.payload = false
        · rw [if_pos h1, if_pos h1]
        · rw [if_neg h1, if_neg h1]
          by_cases h2 : q.timeRes ≠ K.GPMF_OK
          · rw [if_pos h2, if_pos h2]
          · rw [if_neg h2, if_neg h2]
            have h3 : q.initRes ≠ K.GPMF_OK := by
              rcases hfail with h | h
              · exact absurd h h2
              · exact h
            rw [if_pos h3, if_pos h3]
    | succ k =>
      have hk2 : rest[k]? = some p := by simpa using hk
      have ht : List.take (k + 1 + 1) (q :: rest) = q :: List.take (k + 1) rest := by simp
      rw [ht, payloadLoop_cons, payloadLoop_cons]
      by_cases hd : st.fault.isSome = true
      · rw [if_pos hd, if_pos hd]
      · rw [if_neg hd, if_neg hd]
        by_cases h1 : q.payload = false
        · rw [if_pos h1, if_pos h1]
        · rw [if_neg h1, if_neg h1]
          by_cases h2 : q.timeRes ≠ K.GPMF_OK
          · rw [if_pos h2, if_pos h2]
          · rw [if_neg h2, if_neg h2]
            by_cases h3 : q.initRes ≠ K.GPMF_OK
            · rw [if_pos h3, if_pos h3]
            · rw [if_neg h3, if_neg h3]
              exact ih k (idx + 1) p _ hk2 hfail

theorem processRecord_items (K : Sdk) (s : Strm) :
    ∀ e ∈ (processRecord K s).out, e.isItem = true := by
  have hstart : ∀ e ∈ start.out, e.isItem = true := by
    intro e he
    cases he
  unfold processRecord
  dsimp only
  split_ifs
  · apply printLoop_invariant K s.record (tablesOf s) (fun out => ∀ e ∈ out, e.isItem = true)
    · intro e he
      cases he
    · intro l hl e he
      rcases List.mem_append.mp he with h | h
      · exact hl e h
      · rw [List.mem_singleton.mp h]
        rfl
    · intro l hl e he
      rcases List.mem_append.mp he with h | h
      · exact hl e h
      · rw [List.mem_singleton.mp h]
        rfl
    · intro l q hl e he
      rcases List.mem_append.mp he with h | h
      · exact hl e h
      · rw [List.mem_singleton.mp h]
        rfl
    · intro l q j hl e he
      rcases List.mem_append.mp he with h | h
      · exact hl e h
      · rw [List.mem_singleton.mp h]
        rfl
    · intro l q hl e he
      rcases List.mem_append.mp he with h | h
      · exact hl e h
      · rw [List.mem_singleton.mp h]
        rfl
  · exact hstart
  · exact hstart
  · exact hstart

theorem afterRecord_out (K : Sdk) (s : Strm) (st : Run) (e : Event)
    (h : e ∈ (afterRecord K s st).out) : e ∈ st.out ∨ e.isItem = true := by
  rcases List.mem_append.mp h with h3 | h3
  · exact Or.inl h3
  · exact Or.inr (processRecord_items K s e h3)

/-- The stream loop adds only printed items to the output. -/
theorem strmLoop_out (K : Sdk) (four_cc : Nat) (e : Event) :
    ∀ (ss : List Strm) (st : Run),
      e ∈ (strmLoop K four_cc ss st).out → e ∈ st.out ∨ e.isItem = true := by
  intro ss
  induction ss with
  | nil =>
    intro st h
    exact Or.inl h
  | cons s rest ih =>
    intro st h
    unfold strmLoop at h
    dsimp only at h
    split_ifs at h
    · exact Or.inl h
    · exact ih _ h
    · rcases ih _ h with h2 | h2
      · exact afterRecord_out K s st e h2
      · exact Or.inr h2
    · exact ih { st with ret := s.seekRes } h
    · rcases ih _ h with h2 | h2
      · exact afterRecord_out K s { st with ret := s.seekRes } e h2
      · exact Or.inr h2

theorem note_out (e x : Event) (st : Run) (h : x ∈ (note e st).out) :
    x ∈ st.out ∨ x = e := by
  unfold note at h
  split_ifs at h
  · exact Or.inl h
  · rcases List.mem_append.mp h with h2 | h2
    · exact Or.inl h2
    · exact Or.inr (List.mem_singleton.mp h2)

/-- The payload loop started at `idx` on `ps` adds printed items and the marks
of the payloads `idx` to `idx + ps.length - 1` to the output, nothing else. -/
theorem payloadLoop_out (K : Sdk) (four_cc : Nat) (e : Event) :
    ∀ (ps : List Payload) (idx : Nat) (st : Run),
      e ∈ (payloadLoop K four_cc idx ps st).out →
      e ∈ st.out ∨ e.isItem = true ∨
        ∃ m, idx ≤ m ∧ m < idx + ps.length ∧ (e = Event.init m ∨ e = Event.reset m) := by
  intro ps
  induction ps with
  | nil =>
    intro idx st h
    exact Or.inl h
  | cons q rest ih =>
    intro idx st h
    rw [payloadLoop_cons] at h
    have hlen : (q :: rest).length = rest.length + 1 := rfl
    have hidx : ∀ x, (x = Event.init idx ∨ x = Event.reset idx) →
        ∃ m, idx ≤ m ∧ m < idx + (q :: rest).length ∧ (x = Event.init m ∨ x = Event.reset m) :=
      fun x hx => ⟨idx, le_refl idx, by omega, hx⟩
    split_ifs at h
    · exact Or.inl h
    · exact Or.inl h
    · exact Or.inl h
    · rcases List.mem_append.mp h with h3 | h3
      · exact Or.inl h3
      · exact Or.inr (Or.inr (hidx e (Or.inl (List.mem_singleton.mp h3))))
    · rcases ih (idx + 1) _ h with h3 | h3 | ⟨m, hm1, hm2, hm3⟩
      · rcases note_out _ e _ h3 with h4 | h4
        · rcases strmLoop_out K four_cc e q.strms _ h4 with h5 | h5
          · rcases List.mem_append.mp h5 with h6 | h6
            · exact Or.inl h6
            · exact Or.inr (Or.inr (hidx e (Or.inl (List.mem_singleton.mp h6))))
          · exact Or.inr (Or.inl h5)
        · exact Or.inr (Or.inr (hidx e (Or.inr h4)))
      · exact Or.inr (Or.inl h3)
      · exact Or.inr (Or.inr ⟨m, by omega, by omega, hm3⟩)

theorem report_init (K : Sdk) (ret m : Nat) : Event.init m ∉ report K ret := by
  unfold report
  split_ifs <;> simp

theorem replicate_help (n : Nat) (e : Event) (h : e ∈ List.replicate n Event.help) :
    e = Event.help :=
  List.eq_of_mem_replicate h

/-- With a valid FourCC the stream loop never writes `ret`. -/
theorem strmLoop_ret_valid (K : Sdk) (four_cc : Nat)
    (hv : K.GPMF_VALID_FOURCC four_cc = true) :
    ∀ (ss : List Strm) (st : Run), (strmLoop K four_cc ss st).ret = st.ret := by
  intro ss
  induction ss with
  | nil =>
    intro st
    rfl
  | cons s rest ih =>
    intro st
    unfold strmLoop
    split_ifs
    · rfl
    · exact ih st
    · exact ih _

theorem note_ret (e : Event) (st : Run) : (note e st).ret = st.ret := by
  unfold note
  split_ifs <;> rfl

theorem payloadLoop_ret_valid (K : Sdk) (four_cc : Nat)
    (hv : K.GPMF_VALID_FOURCC four_cc = true) :
    ∀ (ps : List Payload) (idx : Nat) (st : Run),
      (∀ p ∈ ps, p.payload = true ∧ p.timeRes = K.GPMF_OK ∧ p.initRes = K.GPMF_OK) →
      st.ret = K.GPMF_OK → (payloadLoop K four_cc idx ps st).ret = K.GPMF_OK := by
  intro ps
  induction ps with
  | nil =>
    intro idx st _ h
    exact h
  | cons q rest ih =>
    intro idx st hall h
    obtain ⟨h1, h2, h3⟩ := hall q (List.mem_cons_self q rest)
    rw [payloadLoop_cons]
    by_cases hd : st.fault.isSome = true
    · rw [if_pos hd]
      exact h
    · rw [if_neg hd, if_neg (by rw [h1]; decide), if_neg (not_not.mpr h2),
        if_neg (not_not.mpr h3)]
      apply ih
      · intro p hp
        exact hall p (List.mem_cons_of_mem q hp)
      · rw [note_ret, strmLoop_ret_valid K four_cc hv]
        exact h3

/-- The path of line 113: when the FourCC is valid, every payload is fetched,
timed and initialised and no undefined access ends the run, `main` returns 0 and
prints no error message, whatever the searches find. -/
theorem valid_fourcc_run_ok (K : Sdk) (argc : Nat) (argv : List Chars) (src : Source)
    (h0 : K.GPMF_OK = 0) (hargs : 2 ≤ argc)
    (hv : K.GPMF_VALID_FOURCC (load_parameters K argc argv unsetParams).2.four_cc = true)
    (hh : src.mp4handle ≠ 0) (hd : src.shortDuration = false)
    (hp : ∀ p ∈ src.payloads,
      p.payload = true ∧ p.timeRes = K.GPMF_OK ∧ p.initRes = K.GPMF_OK)
    (_hdef : (main K argc argv src).fault = none) :
    (main K argc argv src).ret = 0 ∧
    Event.unknownType ∉ (main K argc argv src).out ∧
    Event.corruption ∉ (main K argc argv src).out := by
  have hlp : (load_parameters K argc argv unsetParams).1 = 0 := by
    unfold load_parameters
    rw [if_neg (by omega)]
  have hret := payloadLoop_ret_valid K _ hv src.payloads 0
    { ret := K.GPMF_OK,
      out := List.replicate (load_parameters K argc argv unsetParams).2.helps Event.help,
      fault := none }
    hp rfl
  have hr : report K K.GPMF_OK = [] := by
    unfold report
    rw [h0]
    simp
  have hmain : (main K argc argv src).ret = K.GPMF_OK ∧
      (main K argc argv src).out
        = (payloadLoop K (load_parameters K argc argv unsetParams).2.four_cc 0 src.payloads
            { ret := K.GPMF_OK,
              out := List.replicate (load_parameters K argc argv unsetParams).2.helps
                Event.help,
              fault := none }).out := by
    unfold main
    dsimp only
    rw [if_neg (not_not.mpr hlp), if_neg hh, hd]
    simp only [Bool.false_eq_true, if_false]
    split_ifs
    · exact ⟨hret, rfl⟩
    · refine ⟨hret, ?_⟩
      show _ ++ report K _ = _
      rw [hret, hr, List.append_nil]
  have hno : ∀ e, e.isItem = false → e ≠ Event.help →
      (∀ m, e ≠ Event.init m) → (∀ m, e ≠ Event.reset m) →
      e ∉ (main K argc argv src).out := by
    intro e h1 h2 h3 h4 hin
    rw [hmain.2] at hin
    rcases payloadLoop_out K _ e _ 0 _ hin with h | h | ⟨m, _, _, h⟩
    · exact h2 (replicate_help _ e h)
    · rw [h1] at h
      cases h
    · rcases h with h | h
      · exact h3 m h
      · exact h4 m h
  refine ⟨by rw [hmain.1]; exact h0, ?_, ?_⟩
  · exact hno _ rfl (by simp) (by simp) (by simp)
  · exact hno _ rfl (by simp) (by simp) (by simp)

/-- C1: if the payload time lookup or `GPMF_Init` fails on payload `k`, `main`
ends the payload loop there at the latest: the run is the same as on the first
`k + 1` payloads alone, and no payload after `k` is initialised. -/
theorem failed_payload_ends_loop (K : Sdk) (argc : Nat) (argv : List Chars) (src : Source)
    (k : Nat) (p : Payload) (hk : src.payloads[k]? = some p)
    (hfail : p.timeRes ≠ K.GPMF_OK ∨ p.initRes ≠ K.GPMF_OK) :
    main K argc argv src
      = main K argc argv { src with payloads := src.payloads.take (k + 1) } ∧
    ∀ m, k < m → Event.init m ∉ (main K argc argv src).out := by
  have htake := fun v st => payloadLoop_take K v src.payloads k 0 p st hk hfail
  have heq : main K argc argv src
      = main K argc argv { src with payloads := src.payloads.take (k + 1) } := by
    unfold main
    simp only [htake]
  refine ⟨heq, ?_⟩
  intro m hm hin
  rw [heq] at hin
  unfold main at hin
  dsimp only at hin
  have hrep : ∀ n, Event.init m ∉ List.replicate n Event.help := by
    intro n hmem
    have := replicate_help n _ hmem
    cases this
  have hloop : Event.init m ∉
      (payloadLoop K (load_parameters K argc argv unsetParams).2.four_cc 0
        (List.take (k + 1) src.payloads)
        { ret := K.GPMF_OK,
          out := List.replicate (load_parameters K argc argv unsetParams).2.helps Event.help,
          fault := none }).out := by
    intro h
    rcases payloadLoop_out K _ _ _ 0 _ h with h2 | h2 | ⟨n, _, hn, h2⟩
    · exact hrep _ h2
    · cases h2
    · have hl : (List.take (k + 1) src.payloads).length ≤ k + 1 := by
        rw [List.length_take]
        exact min_le_left _ _
      have hmn : m = n := by
        rcases h2 with h3 | h3
        · cases h3
          rfl
        · cases h3
      have h3 : n < 0 + (List.take (k + 1) src.payloads).length := hn
      omega
  split_ifs at hin
  · rcases List.mem_append.mp hin with h | h
    · exact hrep _ h
    · simp at h
  · rcases List.mem_append.mp hin with h | h
    · exact hrep _ h
    · simp at h
  · exact hrep _ hin
  · exact hloop hin
  · rcases List.mem_append.mp hin with h | h
    · exact hloop h
    · exact report_init K _ m h

theorem failed_payload_ends_loop_witness :
    (twoPayloads.payloads[0]? = some badPayload ∧
        (badPayload.timeRes ≠ sdk.GPMF_OK ∨ badPayload.initRes ≠ sdk.GPMF_OK)) ∧
      ∀ m, 0 < m → Event.init m ∉ (main sdk 2 argvDefault twoPayloads).out :=
  ⟨⟨rfl, Or.inr (by decide)⟩,
   (failed_payload_ends_loop sdk 2 argvDefault twoPayloads 0 badPayload rfl
      (Or.inr (by decide))).2⟩

end GPMFExtract
